import Mathlib

/-!
Verification of the bug-injection subsystem of the "stresst" repository.

The subsystem under study lives in the stress module (`src/unnamed/part_001`):
the static bug-type catalog `BUG_TYPES`, the selector `selectRandomBugTypes`,
the deterministic fallback mutation engine `fallbackStress` with its two rule
families (`jsMutations`, `genericMutations`), the symptom synthesizer
`generateFallbackSymptoms`, the in-place Fisher-Yates `shuffleArray`, and the
generative injector `introduceAIStress` (the file contains several revisions of
that function; the two relevant ones are both modelled below).

Modelling conventions:
  * Source text is `List Char`.  JavaScript string operations (`match`,
    `replace`, `split`, `includes`, `slice`) are modelled by executable
    functions on `List Char`; every regular expression that occurs in the
    source is hand-compiled to a deterministic matcher with JavaScript
    semantics (leftmost match, greedy quantifiers, ordered alternation).
  * `Math.random()` is modelled by an oracle `g : Nat → Nat` together with a
    call counter `k`; the k-th call of `Math.floor(Math.random() * n)` is
    modelled as `g k % n`.  Every sequence of values the JavaScript code can
    draw is realised by some oracle, and conversely.
  * The in-place array mutation of `shuffleArray` is modelled functionally:
    the function returns the shuffled list together with the advanced counter.
  * `fallbackStress` contains no throwing operation (all its string and regex
    operations are total in JavaScript), so it is modelled as a total
    function.  The generative injector can throw; it is modelled in an
    `Except` monad, with the AI SDK import, the `generateText` call and
    `JSON.parse` supplied as oracle parameters, since they are external
    collaborators.
  * Large prompt-template strings (the `subtlety`/`description` prose of
    `STRESS_CONFIGS`, the prompt built by `introduceAIStress`, and the prose
    fields of the catalog entries) only flow into the prompt given to the
    external collaborator and are never inspected by any of the algorithms
    studied here; they are elided from the embedding.
-/

/-! ## Characters and basic JavaScript string primitives -/

/-- The left brace character (written via its code point). -/
def lbrace : Char := Char.ofNat 123

/-- The right brace character (written via its code point). -/
def rbrace : Char := Char.ofNat 125

/-- The apostrophe (single quote) character. -/
def squote : Char := Char.ofNat 39

/-- The backtick character. -/
def btick : Char := Char.ofNat 96

/-- JavaScript `\w`: ASCII letters, digits and underscore. -/
def isWordChar (c : Char) : Bool :=
  (('a' ≤ c && c ≤ 'z') || ('A' ≤ c && c ≤ 'Z') || ('0' ≤ c && c ≤ '9') || c = '_')

/-- JavaScript `\s` restricted to the ASCII range (space, tab, LF, CR, VT, FF). -/
def isSpaceJS (c : Char) : Bool :=
  (c = ' ' || c = '\t' || c = '\n' || c = '\r' || c = Char.ofNat 11 || c = Char.ofNat 12)

/-- ASCII lower-casing of a JavaScript string (`String.prototype.toLowerCase`). -/
def lowerStr (s : List Char) : List Char := s.map Char.toLower

/-- JavaScript `String.prototype.includes` (substring test). -/
def hasSubstr (hay needle : List Char) : Bool :=
  if needle.isPrefixOf hay then true
  else
    match hay with
    | [] => false
    | _ :: t => hasSubstr t needle

/-- Case-insensitive substring test (models a `/.../i` regex over literals). -/
def hasSubstrCI (hay needle : List Char) : Bool :=
  hasSubstr (lowerStr hay) (lowerStr needle)

/-- JavaScript `String.prototype.replace` with a plain-string pattern:
replace the first occurrence of `needle`, leave the string unchanged if the
needle does not occur. -/
def replaceFirst (hay needle repl : List Char) : List Char :=
  if needle.isPrefixOf hay then repl ++ hay.drop needle.length
  else
    match hay with
    | [] => []
    | c :: t => c :: replaceFirst t needle repl

/-- JavaScript `String.prototype.replace` with a global (`g`) plain pattern:
replace every (non-overlapping, left-to-right) occurrence of `needle`. -/
def replaceAllStr (hay needle repl : List Char) : List Char :=
  if h : needle = [] then hay
  else
    if needle.isPrefixOf hay then
      repl ++ replaceAllStr (hay.drop needle.length) needle repl
    else
      match hay with
      | [] => []
      | c :: t => c :: replaceAllStr t needle repl
termination_by hay.length
decreasing_by
  · rename_i hpre
    simp only [List.length_drop]
    have hlen : 0 < needle.length := List.length_pos.mpr h
    have hle : needle.length ≤ hay.length :=
      List.IsPrefix.length_le (List.isPrefixOf_iff_prefix.mp hpre)
    omega
  · simp

/-- JavaScript `String.prototype.split` with a single-character separator.
Always returns a non-empty list of fragments. -/
def splitOnChar (sep : Char) : List Char → List (List Char)
  | [] => [[]]
  | c :: t =>
    let r := splitOnChar sep t
    if c = sep then [] :: r
    else
      match r with
      | [] => [[c]]
      | h :: t' => (c :: h) :: t'

/-! ## The randomness oracle and Fisher-Yates shuffle -/

/-- Swap of two positions of a list (the JavaScript
`[a[i], a[j]] = [a[j], a[i]]` destructuring swap).  Out-of-range indices leave
the list unchanged (they never occur in the modelled code). -/
def listSwap (l : List α) (i j : Nat) : List α :=
  match l.get? i, l.get? j with
  | some a, some b => (l.set i b).set j a
  | _, _ => l

/-- One downward pass of the Fisher-Yates loop of `shuffleArray`:
`for (let i = array.length - 1; i > 0; i--)`, drawing
`j = Math.floor(Math.random() * (i + 1))` at oracle position `k`. -/
def fyAux (g : Nat → Nat) : Nat → Nat → List α → List α × Nat
  | k, 0, l => (l, k)
  | k, i + 1, l =>
    let j := g k % (i + 2)
    fyAux g (k + 1) i (listSwap l (i + 1) j)

/-- `shuffleArray` (source lines 2004-2010): Fisher-Yates shuffle.  The
in-place mutation is modelled by returning the shuffled list together with the
advanced oracle counter. -/
def shuffleArray (g : Nat → Nat) (k : Nat) (l : List α) : List α × Nat :=
  fyAux g k (l.length - 1) l

/-- Leftmost search: try the head matcher at every suffix, earliest first.
Returns the prefix before the match together with the matcher's result. -/
def scanFor (m : List Char → Option β) : List Char → Option (List Char × β)
  | [] => match m [] with
    | some b => some ([], b)
    | none => none
  | c :: t =>
    match m (c :: t) with
    | some b => some ([], b)
    | none =>
      match scanFor m t with
      | some (p, b) => some (c :: p, b)
      | none => none

/-- Existence test for a Boolean head predicate (models `RegExp.test`). -/
def existsSuffix (p : List Char → Bool) : List Char → Bool
  | [] => p []
  | c :: t => p (c :: t) || existsSuffix p t

/-- Greedy `\s*` (split into matched run and rest). -/
def spaceRun (s : List Char) : List Char × List Char :=
  (s.takeWhile isSpaceJS, s.dropWhile isSpaceJS)

/-- Greedy `\w*` (split into matched run and rest). -/
def wordRun (s : List Char) : List Char × List Char :=
  (s.takeWhile isWordChar, s.dropWhile isWordChar)

/-- Literal match at the head; returns the rest on success. -/
def lit (needle s : List Char) : Option (List Char) :=
  if needle.isPrefixOf s then some (s.drop needle.length) else none

/-- Case-insensitive literal match at the head; returns the original matched
characters and the rest. -/
def litCI (needle s : List Char) : Option (List Char × List Char) :=
  let pre := s.take needle.length
  if pre.length = needle.length && lowerStr pre = lowerStr needle then
    some (pre, s.drop needle.length)
  else none

/-- A matcher result: (matched text, capture group, rest of the string). -/
abbrev MatchT := List Char × List Char × List Char

/-- Replace the leftmost regex match, JavaScript `c.replace(regex, repl)` with
a fixed (possibly capture-using) replacement; no match leaves `c` unchanged. -/
def regexReplaceOnce (m : List Char → Option MatchT)
    (repl : List Char → List Char → List Char) (c : List Char) : List Char :=
  match scanFor m c with
  | some (pre, matched, cap, rest) => pre ++ repl matched cap ++ rest
  | none => c

/-- Keywords of `/name|title|label|text|value|query|search|input/i`. -/
def kwsTextA : List (List Char) :=
  ["name", "title", "label", "text", "value", "query", "search", "input"].map String.data

/-- Keywords of `/name|title|label|text|description/i`. -/
def kwsTextB : List (List Char) :=
  ["name", "title", "label", "text", "description"].map String.data

/-- Keywords of `/price|total|amount|cost|sum/i`. -/
def kwsMoney : List (List Char) :=
  ["price", "total", "amount", "cost", "sum"].map String.data

/-- Head predicate for `\.\w+\s*[,\)\}]`. -/
def atDotWordPunct : List Char → Bool
  | c :: r =>
    c = '.' &&
      (let (w, r1) := wordRun r
       !w.isEmpty &&
         (match (spaceRun r1).2 with
          | d :: _ => d = ',' || d = ')' || d = rbrace
          | [] => false))
  | [] => false

/-- Head matcher for `(\.\w*(kw₁|…|kwₙ)\w*)` with the `i` flag: a dot followed
by a word run that contains one of the keywords.  By greediness the matched
text is always the dot plus the entire word run. -/
def mAtDotKwRun (kws : List (List Char)) : List Char → Option MatchT
  | c :: r =>
    if c = '.' then
      let (w, r1) := wordRun r
      if kws.any (fun kw => hasSubstr (lowerStr w) (lowerStr kw)) then
        some ('.' :: w, [], r1)
      else none
    else none
  | [] => none

/-- Head matcher for `\.map\s*\(`. -/
def mAtMapOpen (s : List Char) : Option MatchT :=
  match lit ".map".data s with
  | some r1 =>
    let (sp, r2) := spaceRun r1
    match r2 with
    | '(' :: r3 => some (".map".data ++ sp ++ ['('], [], r3)
    | _ => none
  | none => none

/-- Head matcher for `\.filter\s*\(`. -/
def mAtFilterOpen (s : List Char) : Option MatchT :=
  match lit ".filter".data s with
  | some r1 =>
    let (sp, r2) := spaceRun r1
    match r2 with
    | '(' :: r3 => some (".filter".data ++ sp ++ ['('], [], r3)
    | _ => none
  | none => none

/-- Head matcher for `return\s+(\w+)\.map\s*\(`. -/
def mAtReturnMap (s : List Char) : Option MatchT :=
  match lit "return".data s with
  | some r1 =>
    let (sp, r2) := spaceRun r1
    if sp.isEmpty then none
    else
      let (w, r3) := wordRun r2
      if w.isEmpty then none
      else
        match lit ".map".data r3 with
        | some r4 =>
          let (sp2, r5) := spaceRun r4
          match r5 with
          | '(' :: r6 =>
            some ("return".data ++ sp ++ w ++ ".map".data ++ sp2 ++ ['('], w, r6)
          | _ => none
        | none => none
  | none => none

/-- Head matcher for `\.map\s*\(\s*\(\s*(\w+)`. -/
def mAtMapItemVar (s : List Char) : Option MatchT :=
  match lit ".map".data s with
  | some r1 =>
    let (sp1, r2) := spaceRun r1
    match r2 with
    | '(' :: r3 =>
      let (sp2, r4) := spaceRun r3
      match r4 with
      | '(' :: r5 =>
        let (sp3, r6) := spaceRun r5
        let (w, r7) := wordRun r6
        if w.isEmpty then none
        else some (".map".data ++ sp1 ++ ['('] ++ sp2 ++ ['('] ++ sp3 ++ w, w, r7)
      | _ => none
    | _ => none
  | none => none

/-- Head matcher for `(\w+)\.map\s*\(`. -/
def mAtArrayMap (s : List Char) : Option MatchT :=
  let (w, r1) := wordRun s
  if w.isEmpty then none
  else
    match lit ".map".data r1 with
    | some r2 =>
      let (sp, r3) := spaceRun r2
      match r3 with
      | '(' :: r4 => some (w ++ ".map".data ++ sp ++ ['('], w, r4)
      | _ => none
    | none => none

/-- Head matcher for `\.prop\b` for a fixed property name. -/
def mAtDotPropB (prop : List Char) : List Char → Option MatchT := fun s =>
  match lit ('.' :: prop) s with
  | some r =>
    match r with
    | [] => some ('.' :: prop, [], [])
    | d :: _ => if isWordChar d then none else some ('.' :: prop, [], r)
  | none => none

/-- Head predicate for `\.(name|title|email|username)\b`. -/
def atDotAnyPropB (s : List Char) : Bool :=
  (["name", "title", "email", "username"].map String.data).any
    (fun p => (mAtDotPropB p s).isSome)

/-- Head matcher for `const\s+(\w+)\s*=\s*\{`. -/
def mAtConstObj (s : List Char) : Option MatchT :=
  match lit "const".data s with
  | some r1 =>
    let (sp1, r2) := spaceRun r1
    if sp1.isEmpty then none
    else
      let (w, r3) := wordRun r2
      if w.isEmpty then none
      else
        let (sp2, r4) := spaceRun r3
        match r4 with
        | '=' :: r5 =>
          let (sp3, r6) := spaceRun r5
          match r6 with
          | b :: r7 =>
            if b = lbrace then
              some ("const".data ++ sp1 ++ w ++ sp2 ++ ['='] ++ sp3 ++ [lbrace], w, r7)
            else none
          | [] => none
        | _ => none
  | none => none

/-- The `(name|title|value|data):\s*[^,}]+` tail of `setPropertyToNull`'s
regex, tried at one position: ordered alternation over the keywords, then a
colon, then at least one character before the next comma/closing brace
(`\s*[^,}]+` matches exactly that run, as the classes overlap only on
whitespace and the combined match is the whole run). -/
def tryKwColon : List (List Char) → List Char → Option (List Char × List Char × List Char)
  | [], _ => none
  | kw :: kws, s =>
    match lit kw s with
    | some r1 =>
      match r1 with
      | ':' :: r2 =>
        let vrun := r2.takeWhile (fun c => !(c = ',' || c = rbrace))
        if vrun.isEmpty then tryKwColon kws s
        else some (kw, vrun, r2.drop vrun.length)
      | _ => tryKwColon kws s
    | none => tryKwColon kws s

/-- Longest-prefix (greedy `[^}]*`) search for the keyword tail inside the
brace-free region `R`; `rest` is the text after the region.  Returns the
region prefix consumed by `[^}]*`, the keyword, the value run and the rest. -/
def rmkLoop (kws : List (List Char)) :
    List Char → List Char → Option (List Char × List Char × List Char × List Char)
  | [], rest =>
    (tryKwColon kws rest).map (fun (kw, vrun, r') => ([], kw, vrun, r'))
  | c :: R', rest =>
    match rmkLoop kws R' rest with
    | some (taken, kw, vrun, r') => some (c :: taken, kw, vrun, r')
    | none =>
      (tryKwColon kws (c :: R' ++ rest)).map (fun (kw, vrun, r') => ([], kw, vrun, r'))

/-- Head matcher for `(const\s+\w+\s*=\s*\{[^}]*)(name|title|value|data):\s*[^,}]+`.
Returns (matched, group 1, group 2, rest). -/
def mAtSetPropNull (s : List Char) :
    Option (List Char × List Char × List Char × List Char) :=
  match mAtConstObj s with
  | some (front0, _, r7) =>
    let R := r7.takeWhile (fun c => c ≠ rbrace)
    let rest0 := r7.drop R.length
    match rmkLoop (["name", "title", "value", "data"].map String.data) R rest0 with
    | some (taken, kw, vrun, rest') =>
      some (front0 ++ taken ++ kw ++ [':'] ++ vrun, front0 ++ taken, kw, rest')
    | none => none
  | none => none

/-- Head matcher for `(const\s+NAME\s*=\s*\{[^}]+\};?)` for a fixed name. -/
def mAtConstObjFull (objName : List Char) (s : List Char) : Option MatchT :=
  match lit "const".data s with
  | some r1 =>
    let (sp1, r2) := spaceRun r1
    if sp1.isEmpty then none
    else
      match lit objName r2 with
      | some r3 =>
        let (sp2, r4) := spaceRun r3
        match r4 with
        | '=' :: r5 =>
          let (sp3, r6) := spaceRun r5
          match r6 with
          | b :: r7 =>
            if b = lbrace then
              let run := r7.takeWhile (fun c => c ≠ rbrace)
              if run.isEmpty then none
              else
                match r7.drop run.length with
                | b2 :: r8 =>
                  let core := "const".data ++ sp1 ++ objName ++ sp2 ++ ['='] ++ sp3 ++
                    [lbrace] ++ run ++ [b2]
                  match r8 with
                  | ';' :: r9 => some (core ++ [';'], objName, r9)
                  | _ => some (core, objName, r8)
                | [] => none
            else none
          | [] => none
        | _ => none
      | none => none
  | none => none

/-- Head matcher for `\.length\b`. -/
def mAtLengthB (s : List Char) : Option MatchT :=
  match lit ".length".data s with
  | some r =>
    match r with
    | [] => some (".length".data, [], [])
    | d :: _ => if isWordChar d then none else some (".length".data, [], r)
  | none => none

/-- Head predicate for `\.length\s*[-+]`. -/
def atLengthPM (s : List Char) : Bool :=
  match lit ".length".data s with
  | some r =>
    match (spaceRun r).2 with
    | d :: _ => d = '-' || d = '+'
    | [] => false
  | none => false

/-- Head matcher for `return\s+\w+`. -/
def mAtReturnWord (s : List Char) : Option MatchT :=
  match lit "return".data s with
  | some r1 =>
    let (sp, r2) := spaceRun r1
    if sp.isEmpty then none
    else
      let (w, r3) := wordRun r2
      if w.isEmpty then none
      else some ("return".data ++ sp ++ w, w, r3)
  | none => none

/-- Head matcher for `return\s+(\w*(price|total|amount|cost|sum)\w*)` with the
`i` flag; by greediness the matched text is the (case-preserved) `return`
keyword, the space run and the entire word run. -/
def mAtReturnKwCI (kws : List (List Char)) (s : List Char) : Option MatchT :=
  match litCI "return".data s with
  | some (orig, r1) =>
    let (sp, r2) := spaceRun r1
    if sp.isEmpty then none
    else
      let (w, r3) := wordRun r2
      if kws.any (fun kw => hasSubstr (lowerStr w) (lowerStr kw)) then
        some (orig ++ sp ++ w, w, r3)
      else none
  | none => none

/-- Head predicate for `return.*\.map` (the dot does not match line breaks). -/
def atReturnDotMapLine (s : List Char) : Bool :=
  match lit "return".data s with
  | some r => hasSubstr (r.takeWhile (fun ch => !(ch = '\n' || ch = '\r'))) ".map".data
  | none => false

/-- Head predicate for `\?\s*<`. -/
def atQLt : List Char → Bool
  | '?' :: r =>
    match (spaceRun r).2 with
    | '<' :: _ => true
    | _ => false
  | _ => false

/-- Head predicate for `&&\s*<`. -/
def atAmpLt : List Char → Bool
  | '&' :: '&' :: r =>
    match (spaceRun r).2 with
    | '<' :: _ => true
    | _ => false
  | _ => false

/-- Head matcher for `(\w+)\s*\?\s*<`. -/
def mAtWordQLt (s : List Char) : Option MatchT :=
  let (w, r1) := wordRun s
  if w.isEmpty then none
  else
    let (sp1, r2) := spaceRun r1
    match r2 with
    | '?' :: r3 =>
      let (sp2, r4) := spaceRun r3
      match r4 with
      | '<' :: r5 => some (w ++ sp1 ++ ['?'] ++ sp2 ++ ['<'], w, r5)
      | _ => none
    | _ => none

/-- Head matcher for `(\w+)\s*&&\s*<`. -/
def mAtWordAmpLt (s : List Char) : Option MatchT :=
  let (w, r1) := wordRun s
  if w.isEmpty then none
  else
    let (sp1, r2) := spaceRun r1
    match r2 with
    | '&' :: '&' :: r3 =>
      let (sp2, r4) := spaceRun r3
      match r4 with
      | '<' :: r5 => some (w ++ sp1 ++ ['&', '&'] ++ sp2 ++ ['<'], w, r5)
      | _ => none
    | _ => none

/-- Head predicate for `function\s+\w+`. -/
def atFuncKw (s : List Char) : Bool :=
  match lit "function".data s with
  | some r =>
    let (sp, r2) := spaceRun r
    !sp.isEmpty && !((wordRun r2).1.isEmpty)
  | none => false

/-- Head predicate for `const\s+\w+\s*=\s*\([^)]*\)\s*=>`. -/
def atArrowConst (s : List Char) : Bool :=
  match lit "const".data s with
  | some r1 =>
    let (sp1, r2) := spaceRun r1
    if sp1.isEmpty then false
    else
      let (w, r3) := wordRun r2
      if w.isEmpty then false
      else
        match (spaceRun r3).2 with
        | '=' :: r5 =>
          match (spaceRun r5).2 with
          | '(' :: r7 =>
            let run := r7.takeWhile (fun c => c ≠ ')')
            match r7.drop run.length with
            | ')' :: r8 =>
              match lit "=>".data (spaceRun r8).2 with
              | some _ => true
              | none => false
            | _ => false
          | _ => false
        | _ => false
  | none => false

/-- Head matcher for
`(function\s+\w+[^{]*\{|const\s+\w+\s*=\s*\([^)]*\)\s*=>\s*\{)`,
alternatives tried in order. -/
def mAtFuncHead (s : List Char) : Option MatchT :=
  let alt1 :=
    match lit "function".data s with
    | some r1 =>
      let (sp, r2) := spaceRun r1
      if sp.isEmpty then none
      else
        let (w, r3) := wordRun r2
        if w.isEmpty then none
        else
          let region := r3.takeWhile (fun c => c ≠ lbrace)
          match r3.drop region.length with
          | b :: r4 =>
            if b = lbrace then
              some ("function".data ++ sp ++ w ++ region ++ [lbrace], [], r4)
            else none
          | [] => none
    | none => none
  match alt1 with
  | some m => some m
  | none =>
    match lit "const".data s with
    | some r1 =>
      let (sp1, r2) := spaceRun r1
      if sp1.isEmpty then none
      else
        let (w, r3) := wordRun r2
        if w.isEmpty then none
        else
          let (sp2, r4) := spaceRun r3
          match r4 with
          | '=' :: r5 =>
            let (sp3, r6) := spaceRun r5
            match r6 with
            | '(' :: r7 =>
              let run := r7.takeWhile (fun c => c ≠ ')')
              match r7.drop run.length with
              | ')' :: r8 =>
                let (sp4, r9) := spaceRun r8
                match lit "=>".data r9 with
                | some r10 =>
                  let (sp5, r11) := spaceRun r10
                  match r11 with
                  | b :: r12 =>
                    if b = lbrace then
                      some ("const".data ++ sp1 ++ w ++ sp2 ++ ['='] ++ sp3 ++ ['('] ++
                        run ++ [')'] ++ sp4 ++ "=>".data ++ sp5 ++ [lbrace], [], r12)
                    else none
                  | [] => none
                | none => none
              | _ => none
            | _ => none
          | _ => none
    | none => none

/-- Head matcher for `for\s*\([^;]+;\s*\w+\s*<\s*\w+`. -/
def mAtForLt (s : List Char) : Option MatchT :=
  match lit "for".data s with
  | some r1 =>
    let (sp1, r2) := spaceRun r1
    match r2 with
    | '(' :: r3 =>
      let run := r3.takeWhile (fun c => c ≠ ';')
      if run.isEmpty then none
      else
        match r3.drop run.length with
        | ';' :: r4 =>
          let (sp2, r5) := spaceRun r4
          let (w1, r6) := wordRun r5
          if w1.isEmpty then none
          else
            let (sp3, r7) := spaceRun r6
            match r7 with
            | '<' :: r8 =>
              let (sp4, r9) := spaceRun r8
              let (w2, r10) := wordRun r9
              if w2.isEmpty then none
              else
                some ("for".data ++ sp1 ++ ['('] ++ run ++ [';'] ++ sp2 ++ w1 ++ sp3 ++
                  ['<'] ++ sp4 ++ w2, [], r10)
            | _ => none
        | _ => none
    | _ => none
  | none => none

/-- Head matcher for `\[\s*0\s*\]`. -/
def mAtBrkZero (s : List Char) : Option MatchT :=
  match s with
  | '[' :: r1 =>
    let (sp1, r2) := spaceRun r1
    match r2 with
    | '0' :: r3 =>
      let (sp2, r4) := spaceRun r3
      match r4 with
      | ']' :: r5 => some (['['] ++ sp1 ++ ['0'] ++ sp2 ++ [']'], [], r5)
      | _ => none
    | _ => none
  | _ => none

/-- Head matcher for `await\s+\w+\(`. -/
def mAtAwaitCall (s : List Char) : Option MatchT :=
  match lit "await".data s with
  | some r1 =>
    let (sp, r2) := spaceRun r1
    if sp.isEmpty then none
    else
      let (w, r3) := wordRun r2
      if w.isEmpty then none
      else
        match r3 with
        | '(' :: r4 => some ("await".data ++ sp ++ w ++ ['('], w, r4)
        | _ => none
  | none => none

/-- Head predicate for `return\s+["'`]` (the three JavaScript quote kinds). -/
def atReturnQuote (s : List Char) : Bool :=
  match lit "return".data s with
  | some r1 =>
    let (sp, r2) := spaceRun r1
    if sp.isEmpty then false
    else
      match r2 with
      | q :: _ => q = '"' || q = squote || q = btick
      | [] => false
  | none => false

/-- Head matcher for `return\s+["'`][^"'`]*["'`]`. -/
def mAtReturnQuoted (s : List Char) : Option MatchT :=
  match lit "return".data s with
  | some r1 =>
    let (sp, r2) := spaceRun r1
    if sp.isEmpty then none
    else
      match r2 with
      | q :: r3 =>
        if q = '"' || q = squote || q = btick then
          let run := r3.takeWhile (fun c => !(c = '"' || c = squote || c = btick))
          match r3.drop run.length with
          | q2 :: r4 => some ("return".data ++ sp ++ [q] ++ run ++ [q2], [], r4)
          | [] => none
        else none
      | [] => none
  | none => none

/-! ## Stress levels, mutation rules and the fallback engine -/

/-- Stress levels (`type StressLevel = "low" | "medium" | "high"`). -/
inductive StressLevel
  | low
  | medium
  | high
deriving DecidableEq, Repr

/-- `StressConfig` restricted to the fields `fallbackStress` and
`introduceAIStress` actually read (`bugCountMin`, `bugCountMax`); the
`subtlety`/`description` prose fields only flow into the AI prompt and are
elided. -/
structure StressConfig where
  bugCountMin : Int
  bugCountMax : Int
deriving DecidableEq, Repr

/-- `STRESS_CONFIGS` (source lines 13-33). -/
def STRESS_CONFIGS : StressLevel → StressConfig
  | .low => { bugCountMin := 1, bugCountMax := 2 }
  | .medium => { bugCountMin := 2, bugCountMax := 3 }
  | .high => { bugCountMin := 2, bugCountMax := 3 }

/-- `interface StressMutation` (source lines 1252-1260). -/
structure StressMutation where
  name : List Char
  canApply : List Char → Bool
  apply : List Char → List Char
  description : List Char

/-- The result record
`{ content: string; changes: string[]; symptoms: string[] }`. -/
structure InjectionResult where
  content : List Char
  changes : List (List Char)
  symptoms : List (List Char)
deriving DecidableEq, Repr

/-- The property loop of `wrongPropertyName.apply`: for the first property
whose dotted form occurs in `c`, replace the first `\.prop\b` match with the
typo form (`prop` minus its last character); if the word-boundary match fails,
the string is returned unchanged (JavaScript `replace` with no match). -/
def wrongPropLoop : List (List Char) → List Char → List Char
  | [], c => c
  | p :: ps, c =>
    if hasSubstr c ('.' :: p) then
      regexReplaceOnce (mAtDotPropB p) (fun _ _ => '.' :: p.dropLast) c
    else wrongPropLoop ps c

/-- `jsMutations` (source lines 1283-1490): the TypeScript/JavaScript rule
family of `fallbackStress`, in source order. -/
def jsMutations : List StressMutation := [
  { name := "sliceOffFirstChar".data,
    canApply := fun c => existsSuffix atDotWordPunct c &&
      kwsTextA.any (fun kw => hasSubstrCI c kw),
    apply := fun c =>
      match scanFor (mAtDotKwRun kwsTextA) c with
      | some (_, matched, _, _) => replaceFirst c matched (matched ++ ".slice(1)".data)
      | none => c,
    description := "Added .slice(1) to a text field, cutting off the first character".data },
  { name := "sliceOffLastChars".data,
    canApply := fun c => existsSuffix atDotWordPunct c &&
      kwsTextB.any (fun kw => hasSubstrCI c kw),
    apply := fun c =>
      match scanFor (mAtDotKwRun kwsTextB) c with
      | some (_, matched, _, _) => replaceFirst c matched (matched ++ ".slice(0, -3)".data)
      | none => c,
    description := "Added .slice(0, -3) to a text field, cutting off the last 3 characters".data },
  { name := "hideLastItems".data,
    canApply := fun c => (scanFor mAtMapOpen c).isSome,
    apply := fun c => regexReplaceOnce mAtMapOpen (fun _ _ => ".slice(0, -2).map(".data) c,
    description := "Added .slice(0, -2) before .map(), hiding the last 2 items".data },
  { name := "filterOutHalfItems".data,
    canApply := fun c => (scanFor mAtMapOpen c).isSome && !(scanFor mAtFilterOpen c).isSome,
    apply := fun c =>
      regexReplaceOnce mAtMapOpen (fun _ _ => ".filter((_, i) => i % 2 === 0).map(".data) c,
    description := "Added filter that only shows every other item (even indices)".data },
  { name := "returnEmptyArray".data,
    canApply := fun c => (scanFor mAtReturnMap c).isSome,
    apply := fun c =>
      regexReplaceOnce mAtReturnMap
        (fun _ cap => "return []; ".data ++ cap ++ ".map(".data) c,
    description := "Return empty array before the actual mapped data".data },
  { name := "useFirstIdForAll".data,
    canApply := fun c => (scanFor mAtMapItemVar c).isSome &&
      (hasSubstrCI c ".id".data || hasSubstrCI c ".key".data || hasSubstrCI c ".uuid".data),
    apply := fun c =>
      match scanFor mAtMapItemVar c with
      | some (_, _, itemVar, _) =>
        match scanFor mAtArrayMap c with
        | some (_, _, arrayName, _) =>
          replaceAllStr c (itemVar ++ ".id".data) (arrayName ++ "[0].id".data)
        | none => c
      | none => c,
    description := "Changed to use first item\x27s ID for all items (all IDs now identical)".data },
  { name := "wrongPropertyName".data,
    canApply := fun c => existsSuffix atDotAnyPropB c,
    apply := fun c => wrongPropLoop (["name", "title", "email", "username"].map String.data) c,
    description := "Typo in property name causes undefined (e.g., .name → .nam)".data },
  { name := "setPropertyToNull".data,
    canApply := fun c => (scanFor mAtConstObj c).isSome,
    apply := fun c =>
      match scanFor mAtSetPropNull c with
      | some (_, matched, front, kw, _) =>
        replaceFirst c matched (front ++ kw ++ ": null".data)
      | none => c,
    description := "Set a key property to null, causing undefined display".data },
  { name := "removeOptionalChaining".data,
    canApply := fun c => hasSubstr c "?.".data,
    apply := fun c => replaceAllStr c "?.".data ".".data,
    description := "Removed all optional chaining (?. → .) causing null pointer crashes".data },
  { name := "deletePropertyBeforeUse".data,
    canApply := fun c => (scanFor mAtConstObj c).isSome &&
      (hasSubstr c ".name".data || hasSubstr c ".data".data || hasSubstr c ".items".data),
    apply := fun c =>
      match scanFor mAtConstObj c with
      | some (_, _, objName, _) =>
        (match scanFor (mAtConstObjFull objName) c with
         | some (pre, matched, _, rest) =>
           pre ++ matched ++ "\ndelete ".data ++ objName ++ ".data;".data ++ rest
         | none => c)
      | none => c,
    description := "Deleted a property from object before it\x27s accessed".data },
  { name := "wrongLengthCount".data,
    canApply := fun c => (scanFor mAtLengthB c).isSome && !existsSuffix atLengthPM c,
    apply := fun c => regexReplaceOnce mAtLengthB (fun _ _ => ".length - 2".data) c,
    description := "Changed .length to .length - 2, showing wrong item count".data },
  { name := "returnZeroPrice".data,
    canApply := fun c => kwsMoney.any (fun kw => hasSubstrCI c kw) &&
      (scanFor mAtReturnWord c).isSome,
    apply := fun c =>
      match scanFor (mAtReturnKwCI kwsMoney) c with
      | some (_, matched, _, _) => replaceFirst c matched "return 0".data
      | none => c,
    description := "Return 0 instead of calculated price/total".data },
  { name := "mapToForEach".data,
    canApply := fun c => (scanFor mAtMapOpen c).isSome && existsSuffix atReturnDotMapLine c,
    apply := fun c => regexReplaceOnce mAtMapOpen (fun _ _ => ".forEach(".data) c,
    description := "Changed .map() to .forEach() - returns undefined instead of array".data },
  { name := "invertConditionalDisplay".data,
    canApply := fun c => existsSuffix atQLt c || existsSuffix atAmpLt c,
    apply := fun c =>
      if hasSubstr c "? <".data then
        regexReplaceOnce mAtWordQLt (fun _ cap => '!' :: cap ++ " ? <".data) c
      else if hasSubstr c "&& <".data then
        regexReplaceOnce mAtWordAmpLt (fun _ cap => '!' :: cap ++ " && <".data) c
      else c,
    description := "Inverted conditional rendering - shows when should hide, hides when should show".data },
  { name := "returnUndefinedFromFunction".data,
    canApply := fun c => existsSuffix atFuncKw c || existsSuffix atArrowConst c,
    apply := fun c =>
      match scanFor mAtFuncHead c with
      | some (_, matched, _, _) =>
        replaceFirst c matched (matched ++ "\n  return undefined;".data)
      | none => c,
    description := "Added early return undefined, function returns nothing".data },
  { name := "offByOneLessThan".data,
    canApply := fun c => (scanFor mAtForLt c).isSome,
    apply := fun c =>
      match scanFor mAtForLt c with
      | some (_, matched, _, _) =>
        replaceFirst c matched (replaceFirst matched " < ".data " <= ".data)
      | none => c,
    description := "Changed loop boundary from < to <= (off-by-one, may process extra item)".data },
  { name := "zeroToOne".data,
    canApply := fun c => (scanFor mAtBrkZero c).isSome,
    apply := fun c => regexReplaceOnce mAtBrkZero (fun _ _ => "[1]".data) c,
    description := "Changed array index from [0] to [1], skipping first item".data },
  { name := "removeAwait".data,
    canApply := fun c => (scanFor mAtAwaitCall c).isSome,
    apply := fun c =>
      match scanFor mAtAwaitCall c with
      | some (_, matched, _, _) =>
        replaceFirst c matched (replaceFirst matched "await ".data [])
      | none => c,
    description := "Removed \x27await\x27 keyword - data shows as [object Promise] or undefined".data }
]

/-- `genericMutations` (source lines 1493-1518): language-agnostic rules. -/
def genericMutations : List StressMutation := [
  { name := "genericReturnNull".data,
    canApply := fun c => (scanFor mAtReturnWord c).isSome,
    apply := fun c => regexReplaceOnce mAtReturnWord (fun _ _ => "return null".data) c,
    description := "Changed return value to null - data shows as null/empty".data },
  { name := "genericReturnEmptyString".data,
    canApply := fun c => existsSuffix atReturnQuote c,
    apply := fun c => regexReplaceOnce mAtReturnQuoted (fun _ _ => "return \"\"".data) c,
    description := "Changed return value to empty string - text displays as blank".data },
  { name := "genericTrueToFalse".data,
    canApply := fun c => hasSubstr c "true".data,
    apply := fun c => replaceFirst c "true".data "false".data,
    description := "Changed \x27true\x27 to \x27false\x27 - affects visibility/display logic".data },
  { name := "genericFalseToTrue".data,
    canApply := fun c => hasSubstr c "false".data,
    apply := fun c => replaceFirst c "false".data "true".data,
    description := "Changed \x27false\x27 to \x27true\x27 - affects visibility/display logic".data }
]

/-- The symptom template bank of `generateFallbackSymptoms`
(source lines 1979-1990). -/
def symptomTemplates : List (List Char) := [
  "On the main list page: The last 2 items are completely missing. We have 10 items but only 8 show up on screen.".data,
  "In the search bar: The first letter of every search is being cut off. Typing \x27Apple\x27 searches for \x27pple\x27 instead.".data,
  "On the cards/list view: Every single item shows the same ID number. All 50 items display \x27ID: 1001\x27 even though they should be unique.".data,
  "In the user profile section: All names are showing as \x27undefined\x27. The other fields load fine but names are blank.".data,
  "After loading the page: App crashes with white screen. Console shows \x27Cannot read property of null\x27 error.".data,
  "On the dashboard: All totals and prices show $0.00. We have items worth hundreds of dollars but everything displays as zero.".data,
  "In the item grid: Half the items are completely blank. Every other card (items 2, 4, 6, 8...) shows as empty.".data,
  "When viewing the list: Items that should be visible are hidden, and hidden items are showing. The display logic is completely inverted.".data,
  "On the counter display: Shows \x273 items\x27 but there are clearly 5 items on screen. The count is always 2 less than actual.".data,
  "In the text fields: The last few characters are cut off from every label. \x27Description\x27 shows as \x27Descript\x27, \x27Username\x27 shows as \x27Userna\x27.".data
]

/-- `generateFallbackSymptoms` (source lines 1978-1996): shuffle a fresh copy
of the template bank and take `min(changes.length, 3)` entries. -/
def generateFallbackSymptoms (g : Nat → Nat) (k : Nat) (changes : List (List Char)) :
    List (List Char) × Nat :=
  let numSymptoms := min changes.length 3
  let p := shuffleArray g k symptomTemplates
  (p.1.take numSymptoms, p.2)

/-- Extension computation of `fallbackStress` (source line 1276):
`filename.split(".").pop()?.toLowerCase()`. -/
def extOf (filename : List Char) : List Char :=
  lowerStr (((splitOnChar '.' filename).getLast?).getD [])

/-- Rule-family selection of `fallbackStress` (source lines 1520-1526):
script-like extensions get `jsMutations`, all other files `genericMutations`. -/
def availableMutationsFor (filename : List Char) : List StressMutation :=
  if (["ts", "tsx", "js", "jsx"].map String.data).contains (extOf filename) then jsMutations
  else genericMutations

/-- The diagnostic change entry of `fallbackStress` (source line 1553). -/
def noChangeMsg : List Char :=
  "No automatic changes could be applied - file may need manual review".data

/-- The mutation loop of `fallbackStress` (source lines 1538-1549): walk the
shuffled applicable rules, stop at `bugCount` accepted changes, re-check
applicability against the current text, and count a rule only if its
transform effectively changed the text. -/
def applyLoop (bugCount : Int) :
    List StressMutation → List Char → List (List Char) → List Char × List (List Char)
  | [], content, changes => (content, changes)
  | m :: rest, content, changes =>
    if bugCount ≤ (changes.length : Int) then (content, changes)
    else
      if m.canApply content then
        let newContent := m.apply content
        if newContent ≠ content then
          applyLoop bugCount rest newContent (changes ++ [m.description])
        else applyLoop bugCount rest content changes
      else applyLoop bugCount rest content changes

/-- `fallbackStress` (source lines 1273-1557): the deterministic fallback
mutation engine.  The `_context` parameter is accepted for API compatibility
and never read, exactly as in the source. -/
def fallbackStress (g : Nat → Nat) (k : Nat) (content filename : List Char)
    (_context : Option (List Char)) (stressLevel : StressLevel)
    (targetBugCount : Option Int) : InjectionResult :=
  let config := STRESS_CONFIGS stressLevel
  let availableMutations := availableMutationsFor filename
  let applicableMutations := availableMutations.filter (fun m => m.canApply content)
  let shuffledPair := shuffleArray g k applicableMutations
  let shuffled := shuffledPair.1
  let k1 := shuffledPair.2
  let bugCountPair : Int × Nat :=
    match targetBugCount with
    | some t => (t, k1)
    | none =>
      (config.bugCountMin +
        Int.ofNat (g k1 % (config.bugCountMax - config.bugCountMin + 1).toNat), k1 + 1)
  let looped := applyLoop bugCountPair.1 shuffled content []
  let changes := if looped.2 = [] then [noChangeMsg] else looped.2
  { content := looped.1, changes := changes,
    symptoms := (generateFallbackSymptoms g bugCountPair.2 changes).1 }

/-! ## Lemmas about the loop, the symptom synthesizer and the engine -/

/-- The all-zero randomness oracle, used for concrete witnesses. -/
def zeroOracle : Nat → Nat := fun _ => 0

/-- Priority levels of catalog entries. -/
inductive Priority
  | high
  | medium
  | low
deriving DecidableEq, Repr

/-- `interface BugType` restricted to the fields `selectRandomBugTypes` reads
(`id` for uniqueness, `category`, `priority`); the prose fields (`name`,
`description`, `examples`, `sampleSymptom`) only steer the AI prompt text and
are elided. -/
structure BugType where
  id : String
  category : String
  priority : Priority
deriving DecidableEq, Repr

/-- `BUG_TYPES` (source lines 58-619): the full static catalog, in source
order. -/
def BUG_TYPES : List BugType := [
  ⟨"string-reverse", "STRING_CORRUPTION", .high⟩,
  ⟨"string-uppercase", "STRING_CORRUPTION", .high⟩,
  ⟨"string-remove-spaces", "STRING_CORRUPTION", .high⟩,
  ⟨"string-slice-start", "STRING_CORRUPTION", .high⟩,
  ⟨"string-slice-end", "STRING_CORRUPTION", .high⟩,
  ⟨"string-wrong-encoding", "STRING_CORRUPTION", .high⟩,
  ⟨"string-wrong-concat", "STRING_CORRUPTION", .high⟩,
  ⟨"array-slice-end", "DATA_DISAPPEARING", .high⟩,
  ⟨"array-filter-half", "DATA_DISAPPEARING", .high⟩,
  ⟨"array-return-empty", "DATA_DISAPPEARING", .high⟩,
  ⟨"array-wrong-filter", "DATA_DISAPPEARING", .high⟩,
  ⟨"destructure-wrong", "DATA_DISAPPEARING", .high⟩,
  ⟨"same-id-all", "SAME_VALUE", .high⟩,
  ⟨"same-text-all", "SAME_VALUE", .high⟩,
  ⟨"cache-outside-loop", "SAME_VALUE", .high⟩,
  ⟨"wrong-closure", "SAME_VALUE", .medium⟩,
  ⟨"property-typo", "UNDEFINED_NULL", .high⟩,
  ⟨"return-undefined", "UNDEFINED_NULL", .high⟩,
  ⟨"delete-before-use", "UNDEFINED_NULL", .high⟩,
  ⟨"wrong-optional-chain", "UNDEFINED_NULL", .high⟩,
  ⟨"wrong-nullish", "UNDEFINED_NULL", .medium⟩,
  ⟨"off-by-one-length", "CALCULATION", .high⟩,
  ⟨"return-zero", "CALCULATION", .high⟩,
  ⟨"wrong-math-op", "CALCULATION", .high⟩,
  ⟨"wrong-comparison", "CALCULATION", .medium⟩,
  ⟨"wrong-rounding", "CALCULATION", .medium⟩,
  ⟨"invert-condition", "RENDERING", .high⟩,
  ⟨"map-to-foreach", "RENDERING", .high⟩,
  ⟨"wrong-sort", "RENDERING", .medium⟩,
  ⟨"wrong-index", "RENDERING", .high⟩,
  ⟨"missing-await", "ASYNC", .high⟩,
  ⟨"wrong-promise-method", "ASYNC", .medium⟩,
  ⟨"input-truncate", "FORM", .high⟩,
  ⟨"input-clear", "FORM", .high⟩,
  ⟨"validation-invert", "FORM", .high⟩,
  ⟨"wrong-event", "FORM", .medium⟩,
  ⟨"boolean-flip", "LOGIC", .medium⟩,
  ⟨"wrong-ternary", "LOGIC", .high⟩,
  ⟨"wrong-logical-op", "LOGIC", .medium⟩,
  ⟨"string-concat-number", "TYPE", .high⟩,
  ⟨"wrong-parse", "TYPE", .medium⟩,
  ⟨"pipeline-normalizer", "PIPELINE", .medium⟩,
  ⟨"pipeline-formatter", "PIPELINE", .medium⟩,
  ⟨"pipeline-validator", "PIPELINE", .medium⟩,
  ⟨"pipeline-chain", "PIPELINE", .high⟩
]

/-- The priority filter of `selectRandomBugTypes` (source lines 631-642). -/
def priorityFilterFor : StressLevel → List Priority
  | .low => [.high]
  | .medium => [.high, .medium]
  | .high => [.high, .medium, .low]

/-- First selection pass of `selectRandomBugTypes` (source lines 658-665):
walk the shuffled list, selecting at most one archetype per category, until
`count` entries are selected. -/
def selectFirstPass (count : Nat) :
    List BugType → List String → List BugType → List BugType
  | sel, _, [] => sel
  | sel, used, b :: rest =>
    if count ≤ sel.length then sel
    else if used.contains b.category then selectFirstPass count sel used rest
    else selectFirstPass count (sel ++ [b]) (used ++ [b.category]) rest

/-- Second selection pass of `selectRandomBugTypes` (source lines 667-673):
walk the shuffled list again, allowing category repeats but skipping entries
already selected, until `count` entries are selected. -/
def selectSecondPass (count : Nat) : List BugType → List BugType → List BugType
  | sel, [] => sel
  | sel, b :: rest =>
    if count ≤ sel.length then sel
    else if sel.contains b then selectSecondPass count sel rest
    else selectSecondPass count (sel ++ [b]) rest

/-- `selectRandomBugTypes` (source lines 629-676): filter the catalog by the
tier's allowed priorities, Fisher-Yates shuffle, then the two selection
passes. -/
def selectRandomBugTypes (g : Nat → Nat) (k : Nat) (count : Nat)
    (stressLevel : StressLevel) : List BugType :=
  let applicableBugs := BUG_TYPES.filter
    (fun bug => (priorityFilterFor stressLevel).contains bug.priority)
  let shuffled := (shuffleArray g k applicableBugs).1
  let selected := selectFirstPass count [] [] shuffled
  selectSecondPass count selected shuffled

/-- The number of distinct categories among a list of archetypes. -/
def distinctCategories (l : List BugType) : Nat :=
  ((l.map (·.category)).toFinset).card

/-- The number of distinct categories of `l` not yet in `used`. -/
def catsLeft (l : List BugType) (used : List String) : Nat :=
  ((l.map (·.category)).toFinset.filter (fun c => c ∉ used)).card

/-- `applicableBugs` of `selectRandomBugTypes` (source line 645). -/
def applicableBugsFor (lvl : StressLevel) : List BugType :=
  BUG_TYPES.filter (fun bug => (priorityFilterFor lvl).contains bug.priority)

/-- `text.match(/\{[\s\S]*\}/)`: prefix of a list up to and including its last
closing brace, if any. -/
def lastBraceTake : List Char → Option (List Char)
  | [] => none
  | c :: t =>
    match lastBraceTake t with
    | some m => some (c :: m)
    | none => if c = rbrace then some [c] else none

/-- Extraction of the first top-level brace-delimited blob: the leftmost `{`
through the last `}` of the text (the JavaScript regex `\{[\s\S]*\}` is
leftmost-greedy and `[\s\S]` matches every character). -/
def extractJsonObject (s : List Char) : Option (List Char) :=
  let pre := s.takeWhile (fun c => c ≠ lbrace)
  match s.drop pre.length with
  | [] => none
  | b :: rest =>
    match lastBraceTake rest with
    | some m => some (b :: m)
    | none => none

/-- The parsed JSON payload restricted to the three fields the injector reads
(`parsed.modifiedCode`, `parsed.changes`, `parsed.symptoms`); a missing or
null field is `none`. -/
structure ParsedResponse where
  modifiedCode : Option (List Char)
  changes : Option (List (List Char))
  symptoms : Option (List (List Char))
deriving DecidableEq, Repr

/-- `class AIStressError extends Error` (source lines 1596-1601): a typed
error carrying a message and an optional cause. -/
structure AIStressError where
  message : List Char
  cause : Option (List Char)
deriving DecidableEq, Repr

/-- A thrown JavaScript value: either a typed `AIStressError` or any other
error (represented by its message). -/
inductive StressThrow
  | ai (e : AIStressError)
  | js (msg : List Char)
deriving DecidableEq, Repr

/-- JavaScript truthiness of an optional string (`!parsed.modifiedCode`):
absent, null and the empty string are falsy. -/
def truthyStr : Option (List Char) → Bool
  | none => false
  | some s => !s.isEmpty

/-- `introduceAIStress` (source lines 1617-1969).  `sdkImport` is the outcome
of the dynamic `@ai-sdk/anthropic` import, `generateTextResult` the outcome of
the `generateText` call, `parseJson` the behaviour of `JSON.parse` on the
extracted blob.  Failures inside the `try` block that are not already
`AIStressError`s are re-raised wrapped; the function never calls
`fallbackStress`. -/
def introduceAIStress (sdkImport : Except (List Char) Unit)
    (generateTextResult : Except (List Char) (List Char))
    (parseJson : List Char → Except (List Char) ParsedResponse)
    (g : Nat → Nat) (k : Nat) (content filename : List Char)
    (context : Option (List Char)) (stressLevel : StressLevel)
    (targetBugCount : Option Int) : Except StressThrow InjectionResult :=
  match sdkImport with
  | .error e =>
    .error (.ai ⟨("AI SDK not available. Please ensure @ai-sdk/anthropic is " ++
      "installed and ANTHROPIC_API_KEY is set.").data, some e⟩)
  | .ok _ =>
    -- the randomSeed draw (position k) and, without an explicit count, the
    -- bug-count draw (position k+1) only flow into the elided prompt
    let k2 : Nat := match targetBugCount with | some _ => k + 1 | none => k + 2
    let tryResult : Except StressThrow InjectionResult :=
      match generateTextResult with
      | .error e => .error (.js e)
      | .ok text =>
        match extractJsonObject text with
        | none =>
          .error (.ai ⟨"Failed to parse AI response - no JSON found in output".data, none⟩)
        | some jsonStr =>
          match parseJson jsonStr with
          | .error e => .error (.js e)
          | .ok parsed =>
            if !(truthyStr parsed.modifiedCode) || !(parsed.changes.isSome) then
              .error (.ai ⟨("Invalid AI response structure - missing " ++
                "modifiedCode or changes").data, none⟩)
            else
              .ok { content := parsed.modifiedCode.getD [],
                    changes := parsed.changes.getD [],
                    symptoms :=
                      match parsed.symptoms with
                      | some s => s
                      | none =>
                        (generateFallbackSymptoms g k2 (parsed.changes.getD [])).1 }
    match tryResult with
    | .ok r => .ok r
    | .error (.ai e) => .error (.ai e)
    | .error (.js m) =>
      .error (.ai ⟨("AI stress generation failed. Please check your API key " ++
        "and try again.").data, some m⟩)

/-- The earlier revision of `introduceAIStress` (source lines 925-1206):
on SDK-import failure it returns `fallbackStress` *without* the target bug count
(source line 940); inside the `try` it throws plain `Error`s; and its `catch`
swallows every error and returns `fallbackStress` with the target bug count
(source lines 1201-1205). -/
def introduceAIStressLegacy (sdkImport : Except (List Char) Unit)
    (generateTextResult : Except (List Char) (List Char))
    (parseJson : List Char → Except (List Char) ParsedResponse)
    (g : Nat → Nat) (k : Nat) (content filename : List Char)
    (context : Option (List Char)) (stressLevel : StressLevel)
    (targetBugCount : Option Int) : Except StressThrow InjectionResult :=
  match sdkImport with
  | .error _ =>
    .ok (fallbackStress g k content filename context stressLevel none)
  | .ok _ =>
    let k2 : Nat := match targetBugCount with | some _ => k + 1 | none => k + 2
    let tryResult : Except (List Char) InjectionResult :=
      match generateTextResult with
      | .error e => .error e
      | .ok text =>
        match extractJsonObject text with
        | none => .error "Failed to parse AI response".data
        | some jsonStr =>
          match parseJson jsonStr with
          | .error e => .error e
          | .ok parsed =>
            if !(truthyStr parsed.modifiedCode) || !(parsed.changes.isSome) then
              .error "Invalid AI response structure".data
            else
              .ok { content := parsed.modifiedCode.getD [],
                    changes := parsed.changes.getD [],
                    symptoms :=
                      match parsed.symptoms with
                      | some s => s
                      | none =>
                        (generateFallbackSymptoms g k2 (parsed.changes.getD [])).1 }
    match tryResult with
    | .ok r => .ok r
    | .error _ =>
      .ok (fallbackStress g k2 content filename context stressLevel targetBugCount)

/-! ## Theorems -/

theorem listSwap_swap_perm (x : α) :
    ∀ (t : List α) (m : Nat) (hm : m < t.length),
      ((t.get ⟨m, hm⟩) :: t.set m x).Perm (x :: t)
  | y :: s, 0, _ => List.Perm.swap _ _ _
  | y :: s, m + 1, hm => by
    have hm' : m < s.length := by simpa using Nat.lt_of_succ_lt_succ hm
    have ih := listSwap_swap_perm x s m hm'
    have h1 : List.Perm (s.get ⟨m, hm'⟩ :: y :: s.set m x)
        (y :: s.get ⟨m, hm'⟩ :: s.set m x) := List.Perm.swap _ _ _
    have h2 : List.Perm (y :: x :: s) (x :: y :: s) := List.Perm.swap _ _ _
    exact h1.trans ((ih.cons y).trans h2)

theorem listSwap_perm_lt :
    ∀ (l : List α) (i j : Nat), i < j → ∀ (hi : i < l.length) (hj : j < l.length),
      ((l.set i (l.get ⟨j, hj⟩)).set j (l.get ⟨i, hi⟩)).Perm l
  | x :: t, 0, m + 1, _, hi, hj => by
    have hm : m < t.length := by simpa using Nat.lt_of_succ_lt_succ hj
    have hperm := listSwap_swap_perm x t m hm
    simpa [List.set_cons_succ] using hperm
  | x :: t, n + 1, m + 1, hlt, hi, hj => by
    have hn : n < t.length := by simpa using Nat.lt_of_succ_lt_succ hi
    have hm : m < t.length := by simpa using Nat.lt_of_succ_lt_succ hj
    have ih := listSwap_perm_lt t n m (Nat.lt_of_succ_lt_succ hlt) hn hm
    simpa [List.set_cons_succ] using ih.cons x

theorem set_get_self : ∀ (l : List α) (i : Nat) (hi : i < l.length),
    l.set i (l.get ⟨i, hi⟩) = l
  | _ :: _, 0, _ => rfl
  | x :: t, n + 1, hi =>
    congrArg (x :: ·) (set_get_self t n (by simpa using Nat.lt_of_succ_lt_succ hi))

/-- Swapping two positions produces a permutation of the original list. -/
theorem listSwap_perm (l : List α) (i j : Nat) : (listSwap l i j).Perm l := by
  unfold listSwap
  cases hi : l.get? i with
  | none => simp
  | some a =>
    cases hj : l.get? j with
    | none => simp
    | some b =>
      simp only
      have hi' : i < l.length := List.get?_eq_some.mp hi |>.1
      have hj' : j < l.length := List.get?_eq_some.mp hj |>.1
      have ha : l.get ⟨i, hi'⟩ = a := by
        have := List.get?_eq_some.mp hi
        exact this.2
      have hb : l.get ⟨j, hj'⟩ = b := (List.get?_eq_some.mp hj).2
      subst ha; subst hb
      rcases Nat.lt_trichotomy i j with hlt | heq | hgt
      · exact listSwap_perm_lt l i j hlt hi' hj'
      · subst heq
        rw [List.set_set, set_get_self]
      · have h := listSwap_perm_lt l j i hgt hj' hi'
        rw [List.set_comm _ _ _ (Nat.ne_of_gt hgt)]
        exact h

theorem fyAux_perm (g : Nat → Nat) :
    ∀ (i k : Nat) (l : List α), ((fyAux g k i l).1).Perm l
  | 0, _, _ => List.Perm.refl _
  | i + 1, k, l => by
    have ih := fyAux_perm g i (k + 1) (listSwap l (i + 1) (g k % (i + 2)))
    exact ih.trans (listSwap_perm l (i + 1) (g k % (i + 2)))

/-- The shuffled array is a permutation of the input array. -/
theorem shuffleArray_perm (g : Nat → Nat) (k : Nat) (l : List α) :
    ((shuffleArray g k l).1).Perm l :=
  fyAux_perm g (l.length - 1) k l

theorem shuffleArray_length (g : Nat → Nat) (k : Nat) (l : List α) :
    ((shuffleArray g k l).1).length = l.length :=
  (shuffleArray_perm g k l).length_eq

/-! ## Hand-compiled matchers for the regular expressions of the mutation rules

Each JavaScript regex used by `fallbackStress` is compiled to a deterministic
matcher.  A matcher examines the head of the string; `scanFor` turns it into a
leftmost search (JavaScript `String.prototype.match` / `RegExp.prototype.test`
semantics).  All the source's regexes have disjoint character classes around
their quantifiers, so greedy matching without backtracking is exact; the one
place where backtracking is observable (`setPropertyToNull`'s `[^}]*`) is
compiled to an explicit longest-prefix search. -/

theorem symptomTemplates_length : symptomTemplates.length = 10 := rfl

theorem generateFallbackSymptoms_length (g : Nat → Nat) (k : Nat)
    (changes : List (List Char)) :
    ((generateFallbackSymptoms g k changes).1).length = min changes.length 3 := by
  unfold generateFallbackSymptoms
  simp only [List.length_take, shuffleArray_length, symptomTemplates_length]
  omega

theorem applyLoop_noop (n : Int) :
    ∀ (L : List StressMutation) (c : List Char) (ch : List (List Char)),
      (∀ m ∈ L, m.canApply c = false ∨ m.apply c = c) →
      applyLoop n L c ch = (c, ch)
  | [], c, ch, _ => rfl
  | m :: rest, c, ch, h => by
    unfold applyLoop
    by_cases hb : n ≤ (ch.length : Int)
    · simp [hb]
    · simp only [if_neg hb]
      rcases h m (List.mem_cons_self m rest) with hc | ha
      · simp only [hc]
        exact applyLoop_noop n rest c ch (fun x hx => h x (List.mem_cons_of_mem m hx))
      · by_cases hcan : m.canApply c
        · simp only [hcan, if_true, ha, ite_not, if_pos rfl]
          exact applyLoop_noop n rest c ch (fun x hx => h x (List.mem_cons_of_mem m hx))
        · simp only [hcan]
          exact applyLoop_noop n rest c ch (fun x hx => h x (List.mem_cons_of_mem m hx))

theorem applyLoop_length_le (n : Int) :
    ∀ (L : List StressMutation) (c : List Char) (ch : List (List Char)),
      (((applyLoop n L c ch).2).length : Int) ≤ max n (ch.length : Int)
  | [], _, ch => le_max_right _ _
  | m :: rest, c, ch => by
    unfold applyLoop
    by_cases hb : n ≤ (ch.length : Int)
    · simp only [if_pos hb]
      exact le_max_right _ _
    · simp only [if_neg hb]
      have hlt : (ch.length : Int) < n := lt_of_not_le hb
      by_cases hcan : m.canApply c
      · simp only [hcan, if_true]
        by_cases hne : m.apply c ≠ c
        · simp only [if_pos hne]
          have ih := applyLoop_length_le n rest (m.apply c) (ch ++ [m.description])
          have hlen : ((ch ++ [m.description]).length : Int) = (ch.length : Int) + 1 := by
            simp
          rw [hlen] at ih
          have : max n ((ch.length : Int) + 1) = n := max_eq_left (by omega)
          rw [this] at ih
          exact le_trans ih (le_max_left _ _)
        · simp only [if_neg hne]
          exact applyLoop_length_le n rest c ch
      · simp only [hcan]
        exact applyLoop_length_le n rest c ch

theorem applyLoop_changes_append (n : Int) :
    ∀ (L : List StressMutation) (c : List Char) (ch : List (List Char)),
      ∃ d, (applyLoop n L c ch).2 = ch ++ d ∧ d.Sublist (L.map (·.description))
  | [], _, ch => ⟨[], by simp [applyLoop]⟩
  | m :: rest, c, ch => by
    unfold applyLoop
    by_cases hb : n ≤ (ch.length : Int)
    · exact ⟨[], by simp [hb]⟩
    · simp only [if_neg hb]
      by_cases hcan : m.canApply c
      · simp only [hcan, if_true]
        by_cases hne : m.apply c ≠ c
        · simp only [if_pos hne]
          obtain ⟨d, hd, hsub⟩ :=
            applyLoop_changes_append n rest (m.apply c) (ch ++ [m.description])
          exact ⟨m.description :: d, by simpa using hd,
            List.cons_sublist_cons.mpr hsub⟩
        · simp only [if_neg hne]
          obtain ⟨d, hd, hsub⟩ := applyLoop_changes_append n rest c ch
          exact ⟨d, hd, hsub.cons _⟩
      · simp only [hcan]
        obtain ⟨d, hd, hsub⟩ := applyLoop_changes_append n rest c ch
        exact ⟨d, hd, hsub.cons _⟩

theorem applyLoop_nonpos (n : Int) (hn : n ≤ 0) (L : List StressMutation)
    (c : List Char) : applyLoop n L c [] = (c, []) := by
  cases L with
  | nil => rfl
  | cons m rest =>
    unfold applyLoop
    simp only [List.length_nil]
    rw [if_pos (by exact_mod_cast hn)]

theorem availableMutationsFor_desc_nodup (filename : List Char) :
    ((availableMutationsFor filename).map (·.description)).Nodup := by
  unfold availableMutationsFor
  split
  · decide
  · decide

theorem fallbackStress_unfolded (g : Nat → Nat) (k : Nat) (content filename : List Char)
    (ctx : Option (List Char)) (lvl : StressLevel) (target : Option Int) :
    fallbackStress g k content filename ctx lvl target =
      (let applicable := (availableMutationsFor filename).filter (fun m => m.canApply content)
       let sp := shuffleArray g k applicable
       let bc : Int :=
         match target with
         | some t => t
         | none => (STRESS_CONFIGS lvl).bugCountMin +
             Int.ofNat (g sp.2 %
               ((STRESS_CONFIGS lvl).bugCountMax - (STRESS_CONFIGS lvl).bugCountMin + 1).toNat)
       let k2 : Nat := match target with | some _ => sp.2 | none => sp.2 + 1
       let looped := applyLoop bc sp.1 content []
       let ch := if looped.2 = [] then [noChangeMsg] else looped.2
       { content := looped.1, changes := ch,
         symptoms := (generateFallbackSymptoms g k2 ch).1 }) := by
  cases target <;> rfl

theorem fallbackStress_changes_shape (g : Nat → Nat) (k : Nat)
    (content filename : List Char) (ctx : Option (List Char)) (lvl : StressLevel)
    (target : Option Int) :
    ∃ (k2 : Nat),
      (fallbackStress g k content filename ctx lvl target).changes ≠ [] ∧
      (fallbackStress g k content filename ctx lvl target).symptoms =
        (generateFallbackSymptoms g k2
          (fallbackStress g k content filename ctx lvl target).changes).1 := by
  rw [fallbackStress_unfolded]
  simp only
  refine ⟨_, ?_, rfl⟩
  split
  · simp
  · assumption

/-! ## Claim theorems for the fallback engine and symptom synthesizer -/

/-- C1: for every randomness oracle, source text (including the empty string),
filename, valid tier and optional explicit bug count, `fallbackStress` returns
a valid `InjectionResult`: the model is a total function (the source performs
no throwing operation), and the result always carries at least one change
entry and at least one symptom entry. -/
theorem fallbackStress_total (g : Nat → Nat) (k : Nat) (content filename : List Char)
    (ctx : Option (List Char)) (lvl : StressLevel) (target : Option Int) :
    1 ≤ (fallbackStress g k content filename ctx lvl target).changes.length ∧
    1 ≤ (fallbackStress g k content filename ctx lvl target).symptoms.length := by
  obtain ⟨k2, hne, hsym⟩ :=
    fallbackStress_changes_shape g k content filename ctx lvl target
  have hlen : 1 ≤ (fallbackStress g k content filename ctx lvl target).changes.length := by
    have := List.length_pos.mpr hne
    omega
  refine ⟨hlen, ?_⟩
  rw [hsym, generateFallbackSymptoms_length]
  omega

/-- C2: if no rule of the selected family effectively applies to the input
text (its test fails, or its transform leaves the text unchanged), then
`fallbackStress` returns the text unchanged, with exactly the single
diagnostic change entry, and still a non-empty symptom list. -/
theorem fallbackStress_noop (g : Nat → Nat) (k : Nat) (content filename : List Char)
    (ctx : Option (List Char)) (lvl : StressLevel) (target : Option Int)
    (h : ∀ m ∈ availableMutationsFor filename,
      m.canApply content = false ∨ m.apply content = content) :
    (fallbackStress g k content filename ctx lvl target).content = content ∧
    (fallbackStress g k content filename ctx lvl target).changes = [noChangeMsg] ∧
    (fallbackStress g k content filename ctx lvl target).symptoms ≠ [] := by
  have hshuf : ∀ m ∈ (shuffleArray g k
      ((availableMutationsFor filename).filter (fun m => m.canApply content))).1,
      m.canApply content = false ∨ m.apply content = content := by
    intro m hm
    have hmem := (shuffleArray_perm g k _).mem_iff.mp hm
    exact h m (List.mem_of_mem_filter hmem)
  have hloop : ∀ n : Int, applyLoop n (shuffleArray g k
      ((availableMutationsFor filename).filter (fun m => m.canApply content))).1
      content [] = (content, []) :=
    fun n => applyLoop_noop n _ content [] hshuf
  rw [fallbackStress_unfolded]
  simp only [hloop]
  refine ⟨by simp, by simp, ?_⟩
  have hl := generateFallbackSymptoms_length g
    (match target with
     | some _ => (shuffleArray g k ((availableMutationsFor filename).filter
         (fun m => m.canApply content))).2
     | none => (shuffleArray g k ((availableMutationsFor filename).filter
         (fun m => m.canApply content))).2 + 1) [noChangeMsg]
  intro hcontra
  simp only [if_true] at hcontra
  rw [hcontra] at hl
  simp at hl

/-- Witness for C2 at a concrete input: on the empty source text with a `.ts`
filename no rule applies, and the engine returns the diagnostic no-op result. -/
theorem fallbackStress_noop_witness :
    (∀ m ∈ availableMutationsFor ("x.ts".data),
      m.canApply [] = false ∨ m.apply [] = []) ∧
    ((fallbackStress zeroOracle 0 [] "x.ts".data none .high none).content = [] ∧
     (fallbackStress zeroOracle 0 [] "x.ts".data none .high none).changes = [noChangeMsg] ∧
     (fallbackStress zeroOracle 0 [] "x.ts".data none .high none).symptoms ≠ []) :=
  ⟨by decide, fallbackStress_noop zeroOracle 0 [] "x.ts".data none .high none (by decide)⟩

theorem drawnBugCount_le (lvl : StressLevel) (x : Nat) :
    (STRESS_CONFIGS lvl).bugCountMin +
      Int.ofNat (x % ((STRESS_CONFIGS lvl).bugCountMax -
        (STRESS_CONFIGS lvl).bugCountMin + 1).toNat) ≤
      (STRESS_CONFIGS lvl).bugCountMax := by
  have h2 : x % 2 < 2 := Nat.mod_lt x (by norm_num)
  cases lvl <;>
    simp only [STRESS_CONFIGS, show ((2 : Int) - 1 + 1).toNat = 2 from rfl,
      show ((3 : Int) - 2 + 1).toNat = 2 from rfl, Int.ofNat_eq_coe] <;>
    omega

theorem fallbackStress_changes_nodup_of_loop (g : Nat → Nat) (k : Nat)
    (content filename : List Char) (bc : Int) :
    ((applyLoop bc (shuffleArray g k ((availableMutationsFor filename).filter
      (fun m => m.canApply content))).1 content []).2).Nodup := by
  obtain ⟨d, hd, hsub⟩ := applyLoop_changes_append bc
    (shuffleArray g k ((availableMutationsFor filename).filter
      (fun m => m.canApply content))).1 content []
  rw [hd]
  simp only [List.nil_append]
  have hperm : ((shuffleArray g k ((availableMutationsFor filename).filter
      (fun m => m.canApply content))).1.map (·.description)).Perm
      (((availableMutationsFor filename).filter
        (fun m => m.canApply content)).map (·.description)) :=
    (shuffleArray_perm g k _).map _
  have hnd2 : (((availableMutationsFor filename).filter
      (fun m => m.canApply content)).map (·.description)).Nodup := by
    have hsub2 : (((availableMutationsFor filename).filter
        (fun m => m.canApply content)).map (·.description)).Sublist
        ((availableMutationsFor filename).map (·.description)) :=
      (List.filter_sublist _).map _
    exact (availableMutationsFor_desc_nodup filename).sublist hsub2
  exact (hperm.nodup_iff.mpr hnd2).sublist hsub

/-- C3 (amended): the engine never applies the same named rule twice within an
invocation — the returned change descriptions are pairwise distinct — and the
number of change entries is at most `max(effectiveBugCount, 1)`: at most the
explicit bug count when one is supplied, and at most the tier's `bugCountMax`
when the count is drawn, except that the single diagnostic entry makes the
length `1` when the effective count is below `1`. -/
theorem fallbackStress_rule_once_bound (g : Nat → Nat) (k : Nat)
    (content filename : List Char) (ctx : Option (List Char)) (lvl : StressLevel)
    (target : Option Int) :
    (fallbackStress g k content filename ctx lvl target).changes.Nodup ∧
    (∀ t : Int, target = some t →
      (((fallbackStress g k content filename ctx lvl target).changes.length : Int) ≤
        max t 1)) ∧
    (target = none →
      (((fallbackStress g k content filename ctx lvl target).changes.length : Int) ≤
        max (STRESS_CONFIGS lvl).bugCountMax 1)) := by
  rw [fallbackStress_unfolded]
  simp only
  constructor
  · split
    · simp
    · exact fallbackStress_changes_nodup_of_loop g k content filename _
  constructor
  · rintro t rfl
    simp only
    split
    · simp only [List.length_singleton, Nat.cast_one]
      exact le_max_right _ _
    · have hle := applyLoop_length_le t (shuffleArray g k
        ((availableMutationsFor filename).filter (fun m => m.canApply content))).1
        content []
      simp only [List.length_nil, Nat.cast_zero] at hle
      calc _ ≤ max t (0 : Int) := hle
        _ ≤ max t 1 := max_le_max (le_refl t) (by norm_num)
  · rintro rfl
    simp only
    split
    · simp only [List.length_singleton, Nat.cast_one]
      exact le_max_right _ _
    · have hle := applyLoop_length_le ((STRESS_CONFIGS lvl).bugCountMin +
        Int.ofNat ((g (shuffleArray g k ((availableMutationsFor filename).filter
          (fun m => m.canApply content))).2) %
          ((STRESS_CONFIGS lvl).bugCountMax - (STRESS_CONFIGS lvl).bugCountMin + 1).toNat))
        (shuffleArray g k ((availableMutationsFor filename).filter
          (fun m => m.canApply content))).1 content []
      simp only [List.length_nil, Nat.cast_zero] at hle
      have hbc := drawnBugCount_le lvl ((g (shuffleArray g k
        ((availableMutationsFor filename).filter (fun m => m.canApply content))).2))
      calc _ ≤ _ := hle
        _ ≤ max (STRESS_CONFIGS lvl).bugCountMax 1 := by
          apply max_le_max hbc (by norm_num)

/-- Counterexample for C3 as stated: with an explicit bug count of `0` the
returned change list has length `1` (the diagnostic entry), which is not
`≤ 0`, so `changeDescriptions.length ≤ effectiveBugCount` fails. -/
theorem fallbackStress_bound_cex :
    (fallbackStress zeroOracle 0 [] "x.ts".data none .medium (some 0)).changes.length = 1 ∧
    ¬(((fallbackStress zeroOracle 0 [] "x.ts".data none .medium
      (some 0)).changes.length : Int) ≤ 0) := by
  constructor
  · decide
  · decide

/-- Witness for C3 (amended) at a concrete input. -/
theorem fallbackStress_rule_once_bound_witness :
    (fallbackStress zeroOracle 0 "items.map(x => x.name)".data "list.ts".data
      none .medium (some 2)).changes.Nodup ∧
    (((fallbackStress zeroOracle 0 "items.map(x => x.name)".data "list.ts".data
      none .medium (some 2)).changes.length : Int) ≤ max 2 1) := by
  have h := fallbackStress_rule_once_bound zeroOracle 0
    "items.map(x => x.name)".data "list.ts".data none .medium (some 2)
  exact ⟨h.1, h.2.1 2 rfl⟩

/-- C7: with a fixed (seeded) randomness source, two calls of the engine with
identical inputs produce identical `InjectionResult`s.  The randomness source
is the oracle `g` with starting counter `k`; two calls observing the same draw
sequence are byte-identical. -/
theorem fallbackStress_deterministic (g1 g2 : Nat → Nat) (k : Nat)
    (content filename : List Char) (ctx : Option (List Char)) (lvl : StressLevel)
    (target : Option Int) (h : ∀ n, g1 n = g2 n) :
    fallbackStress g1 k content filename ctx lvl target =
      fallbackStress g2 k content filename ctx lvl target := by
  have hg : g1 = g2 := funext h
  rw [hg]

/-- Witness for C7 at a concrete input. -/
theorem fallbackStress_deterministic_witness :
    fallbackStress zeroOracle 0 "a".data "x.ts".data none .low (some 1) =
      fallbackStress zeroOracle 0 "a".data "x.ts".data none .low (some 1) :=
  fallbackStress_deterministic zeroOracle zeroOracle 0 "a".data "x.ts".data none
    .low (some 1) (fun _ => rfl)

/-- C10: the `_context` argument of `fallbackStress` is never read, so the
result is independent of it: two calls differing only in the context argument
(with the same randomness draws) return identical results. -/
theorem fallbackStress_context_free (g : Nat → Nat) (k : Nat)
    (content filename : List Char) (ctx1 ctx2 : Option (List Char))
    (lvl : StressLevel) (target : Option Int) :
    fallbackStress g k content filename ctx1 lvl target =
      fallbackStress g k content filename ctx2 lvl target := rfl

/-- C8 (amended): an out-of-domain (negative) explicit bug count is not
rejected anywhere: `fallbackStress` validates nothing and returns a normal
success result — the source text unchanged with the single diagnostic change
entry — instead of surfacing an `InvalidRequest`-class error (no such error
class exists in the code). -/
theorem fallbackStress_negative_target (g : Nat → Nat) (k : Nat)
    (content filename : List Char) (ctx : Option (List Char)) (lvl : StressLevel)
    (t : Int) (ht : t < 0) :
    (fallbackStress g k content filename ctx lvl (some t)).content = content ∧
    (fallbackStress g k content filename ctx lvl (some t)).changes = [noChangeMsg] := by
  rw [fallbackStress_unfolded]
  simp only
  rw [applyLoop_nonpos t (le_of_lt ht)]
  simp

/-- Counterexample for C8 as stated: at the concrete negative explicit count
`-1` the engine returns a fully formed success result (unchanged content,
diagnostic change entry, one synthesized symptom); nothing resembling an
`InvalidRequest` error is raised — the model is a total function into
`InjectionResult` because the source has no validation or throw path. -/
theorem fallbackStress_negative_cex :
    (fallbackStress zeroOracle 0 "a".data "x.ts".data none .medium
      (some (-1))).content = "a".data ∧
    (fallbackStress zeroOracle 0 "a".data "x.ts".data none .medium
      (some (-1))).changes = [noChangeMsg] ∧
    (fallbackStress zeroOracle 0 "a".data "x.ts".data none .medium
      (some (-1))).symptoms.length = 1 := by
  refine ⟨?_, ?_, ?_⟩ <;> decide

/-- Witness for C8 (amended) at a concrete input. -/
theorem fallbackStress_negative_target_witness :
    (-2 : Int) < 0 ∧
    ((fallbackStress zeroOracle 0 "b".data "y.js".data none .low (some (-2))).content =
      "b".data ∧
     (fallbackStress zeroOracle 0 "b".data "y.js".data none .low (some (-2))).changes =
      [noChangeMsg]) :=
  ⟨by norm_num,
   fallbackStress_negative_target zeroOracle 0 "b".data "y.js".data none .low (-2)
     (by norm_num)⟩

/-- C9: the symptom synthesizer returns exactly `min(changes.length, 3)`
entries, pairwise distinct, all drawn from the fixed template bank; the result
is empty exactly when `changes` is empty (hence non-empty whenever `changes`
is non-empty). -/
theorem generateFallbackSymptoms_spec (g : Nat → Nat) (k : Nat)
    (changes : List (List Char)) :
    ((generateFallbackSymptoms g k changes).1).length = min changes.length 3 ∧
    ((generateFallbackSymptoms g k changes).1).Nodup ∧
    (∀ s ∈ (generateFallbackSymptoms g k changes).1, s ∈ symptomTemplates) ∧
    ((generateFallbackSymptoms g k changes).1 = [] ↔ changes = []) := by
  refine ⟨generateFallbackSymptoms_length g k changes, ?_, ?_, ?_⟩
  · unfold generateFallbackSymptoms
    simp only
    have hnd : ((shuffleArray g k symptomTemplates).1).Nodup :=
      (shuffleArray_perm g k symptomTemplates).nodup_iff.mpr (by decide)
    exact hnd.sublist (List.take_sublist _ _)
  · intro s hs
    unfold generateFallbackSymptoms at hs
    simp only at hs
    have hmem : s ∈ (shuffleArray g k symptomTemplates).1 :=
      (List.take_sublist _ _).subset hs
    exact (shuffleArray_perm g k symptomTemplates).mem_iff.mp hmem
  · rw [← List.length_eq_zero, generateFallbackSymptoms_length,
      ← List.length_eq_zero]
    omega

/-- Witness for C9 at a concrete input. -/
theorem generateFallbackSymptoms_spec_witness :
    ((generateFallbackSymptoms zeroOracle 0 ["a".data, "b".data]).1).length =
      min 2 3 ∧
    ((generateFallbackSymptoms zeroOracle 0 ["a".data, "b".data]).1).Nodup ∧
    (∀ s ∈ (generateFallbackSymptoms zeroOracle 0 ["a".data, "b".data]).1,
      s ∈ symptomTemplates) := by
  have h := generateFallbackSymptoms_spec zeroOracle 0 ["a".data, "b".data]
  exact ⟨h.1, h.2.1, h.2.2.1⟩

/-! ## The bug catalog and the selector -/

theorem catsLeft_nil (used : List String) : catsLeft [] used = 0 := rfl

theorem catsLeft_cons_mem (b : BugType) (bs : List BugType) (used : List String)
    (h : b.category ∈ used) : catsLeft (b :: bs) used = catsLeft bs used := by
  unfold catsLeft
  simp only [List.map_cons, List.toFinset_cons, Finset.filter_insert]
  rw [if_neg (by simpa using h)]

theorem catsLeft_cons_not_mem (b : BugType) (bs : List BugType) (used : List String)
    (h : b.category ∉ used) :
    catsLeft (b :: bs) used = catsLeft bs (used ++ [b.category]) + 1 := by
  unfold catsLeft
  simp only [List.map_cons, List.toFinset_cons, Finset.filter_insert, if_pos h]
  have heq : (bs.map (·.category)).toFinset.filter
      (fun c => c ∉ used ++ [b.category]) =
      ((bs.map (·.category)).toFinset.filter (fun c => c ∉ used)).erase b.category := by
    ext x
    simp only [Finset.mem_filter, Finset.mem_erase, List.mem_append,
      List.mem_singleton]
    constructor
    · rintro ⟨hx, hx2⟩
      exact ⟨fun hc => hx2 (Or.inr hc), hx, fun hc => hx2 (Or.inl hc)⟩
    · rintro ⟨hne, hx, hnu⟩
      exact ⟨hx, fun hc => hc.elim hnu hne⟩
  rw [heq]
  by_cases hc : b.category ∈ (bs.map (·.category)).toFinset.filter (fun c => c ∉ used)
  · rw [Finset.insert_eq_self.mpr hc]
    exact (Finset.card_erase_add_one hc).symm
  · rw [Finset.erase_eq_of_not_mem hc, Finset.card_insert_of_not_mem hc]

theorem contains_iff_mem_str (l : List String) (s : String) :
    l.contains s = true ↔ s ∈ l := by
  simp [List.contains_eq_any_beq]

theorem selectFirstPass_length (count : Nat) :
    ∀ (l : List BugType) (sel : List BugType) (used : List String),
      (selectFirstPass count sel used l).length =
        if count ≤ sel.length then sel.length
        else min count (sel.length + catsLeft l used)
  | [], sel, used => by
    unfold selectFirstPass
    split
    · rfl
    · rw [catsLeft_nil]
      omega
  | b :: bs, sel, used => by
    unfold selectFirstPass
    by_cases hb : count ≤ sel.length
    · simp [hb]
    · rw [if_neg hb, if_neg hb]
      by_cases hu : used.contains b.category
      · rw [if_pos hu, selectFirstPass_length count bs sel used, if_neg hb,
          catsLeft_cons_mem b bs used ((contains_iff_mem_str used b.category).mp hu)]
      · rw [if_neg hu, selectFirstPass_length count bs (sel ++ [b]) (used ++ [b.category])]
        have hmem : b.category ∉ used := fun hc =>
          hu ((contains_iff_mem_str used b.category).mpr hc)
        rw [catsLeft_cons_not_mem b bs used hmem]
        simp only [List.length_append, List.length_singleton]
        split
        · omega
        · omega

theorem selectFirstPass_append (count : Nat) :
    ∀ (l : List BugType) (sel : List BugType) (used : List String),
      ∃ d, selectFirstPass count sel used l = sel ++ d ∧ d.Sublist l
  | [], sel, used => ⟨[], by simp [selectFirstPass]⟩
  | b :: bs, sel, used => by
    unfold selectFirstPass
    by_cases hb : count ≤ sel.length
    · exact ⟨[], by simp [hb]⟩
    · rw [if_neg hb]
      by_cases hu : used.contains b.category
      · rw [if_pos hu]
        obtain ⟨d, hd, hsub⟩ := selectFirstPass_append count bs sel used
        exact ⟨d, hd, hsub.cons b⟩
      · rw [if_neg hu]
        obtain ⟨d, hd, hsub⟩ := selectFirstPass_append count bs (sel ++ [b])
          (used ++ [b.category])
        refine ⟨b :: d, ?_, List.cons_sublist_cons.mpr hsub⟩
        rw [hd, List.append_assoc]
        rfl

theorem selectFirstPass_cats_nodup (count : Nat) :
    ∀ (l : List BugType) (sel : List BugType) (used : List String),
      ((sel.map (·.category)).Nodup) → (∀ b ∈ sel, b.category ∈ used) →
      ((selectFirstPass count sel used l).map (·.category)).Nodup
  | [], sel, used, hnd, _ => hnd
  | b :: bs, sel, used, hnd, hsub => by
    unfold selectFirstPass
    by_cases hb : count ≤ sel.length
    · simpa [hb] using hnd
    · rw [if_neg hb]
      by_cases hu : used.contains b.category
      · rw [if_pos hu]
        exact selectFirstPass_cats_nodup count bs sel used hnd hsub
      · rw [if_neg hu]
        have hmem : b.category ∉ used := fun hc =>
          hu ((contains_iff_mem_str used b.category).mpr hc)
        apply selectFirstPass_cats_nodup count bs (sel ++ [b]) (used ++ [b.category])
        · rw [List.map_append]
          simp only [List.map_cons, List.map_nil]
          apply List.Nodup.append hnd (List.nodup_singleton _)
          intro x hx hx2
          simp only [List.mem_singleton] at hx2
          exact hmem (hx2 ▸ (List.exists_of_mem_map hx).elim
            (fun a ⟨ha, hac⟩ => hac ▸ hsub a ha))
        · intro x hx
          rcases List.mem_append.mp hx with hx1 | hx2
          · exact List.mem_append_left _ (hsub x hx1)
          · simp only [List.mem_singleton] at hx2
            subst hx2
            exact List.mem_append_right _ (List.mem_singleton_self _)

theorem contains_iff_mem_bug (l : List BugType) (b : BugType) :
    l.contains b = true ↔ b ∈ l := by
  simp [List.contains_eq_any_beq]

theorem selectSecondPass_eq_of_le (count : Nat) (sel l : List BugType)
    (h : count ≤ sel.length) : selectSecondPass count sel l = sel := by
  cases l with
  | nil => rfl
  | cons b bs =>
    unfold selectSecondPass
    rw [if_pos h]

theorem selectSecondPass_nodup (count : Nat) :
    ∀ (l sel : List BugType), sel.Nodup → (selectSecondPass count sel l).Nodup
  | [], sel, h => h
  | b :: bs, sel, h => by
    unfold selectSecondPass
    by_cases hb : count ≤ sel.length
    · simpa [hb] using h
    · rw [if_neg hb]
      by_cases hc : sel.contains b
      · rw [if_pos hc]
        exact selectSecondPass_nodup count bs sel h
      · rw [if_neg hc]
        apply selectSecondPass_nodup count bs
        have hnb : b ∉ sel := fun hm => hc ((contains_iff_mem_bug sel b).mpr hm)
        simpa [List.nodup_append] using ⟨h, hnb⟩

theorem selectSecondPass_append (count : Nat) :
    ∀ (l sel : List BugType),
      ∃ d, selectSecondPass count sel l = sel ++ d ∧ d.Sublist l
  | [], sel => ⟨[], by simp [selectSecondPass]⟩
  | b :: bs, sel => by
    unfold selectSecondPass
    by_cases hb : count ≤ sel.length
    · exact ⟨[], by simp [hb]⟩
    · rw [if_neg hb]
      by_cases hc : sel.contains b
      · rw [if_pos hc]
        obtain ⟨d, hd, hsub⟩ := selectSecondPass_append count bs sel
        exact ⟨d, hd, hsub.cons b⟩
      · rw [if_neg hc]
        obtain ⟨d, hd, hsub⟩ := selectSecondPass_append count bs (sel ++ [b])
        refine ⟨b :: d, ?_, List.cons_sublist_cons.mpr hsub⟩
        rw [hd, List.append_assoc]
        rfl

theorem selectSecondPass_length (count : Nat) :
    ∀ (l sel : List BugType), l.Nodup →
      (selectSecondPass count sel l).length =
        if count ≤ sel.length then sel.length
        else min count (sel.length + (l.filter (fun x => !(sel.contains x))).length)
  | [], sel, _ => by
    unfold selectSecondPass
    split
    · rfl
    · simp only [List.filter_nil, List.length_nil]
      omega
  | b :: bs, sel, hnd => by
    have hbnd : b ∉ bs := (List.nodup_cons.mp hnd).1
    have hbsnd : bs.Nodup := (List.nodup_cons.mp hnd).2
    unfold selectSecondPass
    by_cases hb : count ≤ sel.length
    · simp [hb]
    · rw [if_neg hb, if_neg hb]
      by_cases hc : sel.contains b
      · rw [if_pos hc, selectSecondPass_length count bs sel hbsnd, if_neg hb]
        have hbm : b ∈ sel := (contains_iff_mem_bug sel b).mp hc
        have hfil : (b :: bs).filter (fun x => !(sel.contains x)) =
            bs.filter (fun x => !(sel.contains x)) := by
          simp [List.filter_cons, hbm]
        rw [hfil]
      · rw [if_neg hc, selectSecondPass_length count bs (sel ++ [b]) hbsnd]
        have hcongr : bs.filter (fun x => !((sel ++ [b]).contains x)) =
            bs.filter (fun x => !(sel.contains x)) := by
          apply List.filter_congr
          intro x hx
          have hxb : x ≠ b := fun h => hbnd (h ▸ hx)
          have : ((sel ++ [b]).contains x) = (sel.contains x) := by
            rw [Bool.eq_iff_iff, contains_iff_mem_bug, contains_iff_mem_bug,
              List.mem_append, List.mem_singleton]
            exact ⟨fun h => h.elim id (fun h2 => absurd h2 hxb), Or.inl⟩
          rw [this]
        rw [hcongr]
        have hnb : b ∉ sel := fun hm => hc ((contains_iff_mem_bug sel b).mpr hm)
        have hfil : (b :: bs).filter (fun x => !(sel.contains x)) =
            b :: bs.filter (fun x => !(sel.contains x)) := by
          simp [List.filter_cons, hnb]
        rw [hfil]
        simp only [List.length_append, List.length_singleton, List.length_cons,
          List.length_nil, Nat.zero_add]
        by_cases h2 : count ≤ sel.length + 1
        · rw [if_pos h2]
          omega
        · rw [if_neg h2]
          omega

theorem filter_not_contains_length (S d : List BugType) (hnd : S.Nodup)
    (hsub : d.Sublist S) :
    (S.filter (fun x => !(d.contains x))).length = S.length - d.length := by
  have hdnd : d.Nodup := hnd.sublist hsub
  have hperm := List.filter_append_perm (fun x => d.contains x) S
  have h1 : (S.filter (fun x => d.contains x)).Perm d := by
    have hsp1 : (S.filter (fun x => d.contains x)).Subperm d := by
      apply List.Nodup.subperm (hnd.sublist (List.filter_sublist S))
      intro x hx
      exact (contains_iff_mem_bug d x).mp (List.of_mem_filter hx)
    have hsp2 : d.Subperm (S.filter (fun x => d.contains x)) := by
      apply List.Nodup.subperm hdnd
      intro x hx
      exact List.mem_filter.mpr ⟨hsub.subset hx, (contains_iff_mem_bug d x).mpr hx⟩
    exact hsp1.perm_of_length_le hsp2.length_le
  have hlen := hperm.length_eq
  rw [List.length_append] at hlen
  have := h1.length_eq
  omega

theorem selectRandomBugTypes_unfolded (g : Nat → Nat) (k : Nat) (count : Nat)
    (lvl : StressLevel) :
    selectRandomBugTypes g k count lvl =
      selectSecondPass count
        (selectFirstPass count [] [] (shuffleArray g k (applicableBugsFor lvl)).1)
        (shuffleArray g k (applicableBugsFor lvl)).1 := rfl

theorem BUG_TYPES_nodup : BUG_TYPES.Nodup := by decide

/-- C4: for every count and tier, the selector returns exactly
`min(count, filteredCatalog.length)` archetypes, each with an allowed
priority, without duplicates; and when `count` is at least the filtered
catalog size it returns the entire filtered catalog (as a permutation). -/
theorem selectRandomBugTypes_spec (g : Nat → Nat) (k : Nat) (count : Nat)
    (lvl : StressLevel) :
    (selectRandomBugTypes g k count lvl).length =
      min count (applicableBugsFor lvl).length ∧
    (∀ b ∈ selectRandomBugTypes g k count lvl,
      (priorityFilterFor lvl).contains b.priority = true) ∧
    (selectRandomBugTypes g k count lvl).Nodup ∧
    ((applicableBugsFor lvl).length ≤ count →
      (selectRandomBugTypes g k count lvl).Perm (applicableBugsFor lvl)) := by
  rw [selectRandomBugTypes_unfolded]
  have hperm : ((shuffleArray g k (applicableBugsFor lvl)).1).Perm
      (applicableBugsFor lvl) := shuffleArray_perm g k _
  set A := applicableBugsFor lvl with hA
  set S := (shuffleArray g k A).1 with hS
  have hAnd : A.Nodup := BUG_TYPES_nodup.sublist (List.filter_sublist _)
  have hSnd : S.Nodup := hperm.nodup_iff.mpr hAnd
  set sel1 := selectFirstPass count [] [] S with hsel1
  obtain ⟨d1, hd1, hsub1⟩ := selectFirstPass_append count S [] []
  have hsel1S : sel1.Sublist S := by
    rw [hsel1, hd1]
    simpa using hsub1
  have hsel1nd : sel1.Nodup := hSnd.sublist hsel1S
  have hlen1 : sel1.length = min count (catsLeft S []) := by
    rw [hsel1, selectFirstPass_length]
    simp only [List.length_nil, Nat.zero_add]
    split
    · omega
    · rfl
  have hlen2 := selectSecondPass_length count S sel1 hSnd
  have hfl : (S.filter (fun x => !(sel1.contains x))).length =
      S.length - sel1.length :=
    filter_not_contains_length S sel1 hSnd hsel1S
  have hcats_le : catsLeft S [] ≤ S.length := by
    unfold catsLeft
    calc (Finset.filter _ _).card
        ≤ (S.map (·.category)).toFinset.card := Finset.card_filter_le _ _
      _ ≤ (S.map (·.category)).length := List.toFinset_card_le _
      _ = S.length := List.length_map _ _
  have hSA : S.length = A.length := hperm.length_eq
  have hs1S : sel1.length ≤ S.length := hsel1S.length_le
  have hlenr : (selectSecondPass count sel1 S).length = min count A.length := by
    rw [hlen2, hfl]
    by_cases hcase : count ≤ sel1.length
    · rw [if_pos hcase]
      omega
    · rw [if_neg hcase]
      omega
  obtain ⟨d2, hd2, hsub2⟩ := selectSecondPass_append count S sel1
  have hsubset : ∀ x ∈ selectSecondPass count sel1 S, x ∈ S := by
    intro x hx
    rw [hd2] at hx
    rcases List.mem_append.mp hx with h1 | h2
    · exact hsel1S.subset h1
    · exact hsub2.subset h2
  refine ⟨hlenr, ?_, selectSecondPass_nodup count S sel1 hsel1nd, ?_⟩
  · intro b hb
    have hbA : b ∈ A := hperm.mem_iff.mp (hsubset b hb)
    rw [hA] at hbA
    unfold applicableBugsFor at hbA
    exact (List.mem_filter.mp hbA).2
  · intro hcount
    have hrnd := selectSecondPass_nodup count S sel1 hsel1nd
    have hsp : (selectSecondPass count sel1 S).Subperm S :=
      hrnd.subperm hsubset
    have hple : S.length ≤ (selectSecondPass count sel1 S).length := by
      rw [hlenr]
      omega
    exact (hsp.perm_of_length_le hple).trans hperm

/-- Witness for C4 at a concrete input (`count` exceeding the catalog). -/
theorem selectRandomBugTypes_spec_witness :
    (selectRandomBugTypes zeroOracle 0 50 .low).length =
      min 50 (applicableBugsFor .low).length ∧
    (selectRandomBugTypes zeroOracle 0 50 .low).Perm (applicableBugsFor .low) := by
  have h := selectRandomBugTypes_spec zeroOracle 0 50 .low
  exact ⟨h.1, h.2.2.2 (by decide)⟩

/-- C5: whenever `count` is at most the number of distinct categories in the
priority-filtered catalog, the selector returns exactly `count` archetypes
with pairwise-distinct categories. -/
theorem selectRandomBugTypes_diverse (g : Nat → Nat) (k : Nat) (count : Nat)
    (lvl : StressLevel)
    (h : count ≤ distinctCategories (applicableBugsFor lvl)) :
    (selectRandomBugTypes g k count lvl).length = count ∧
    ((selectRandomBugTypes g k count lvl).map (·.category)).Nodup := by
  rw [selectRandomBugTypes_unfolded]
  have hperm : ((shuffleArray g k (applicableBugsFor lvl)).1).Perm
      (applicableBugsFor lvl) := shuffleArray_perm g k _
  set A := applicableBugsFor lvl with hA
  set S := (shuffleArray g k A).1 with hS
  have hcatsSA : catsLeft S [] = distinctCategories A := by
    unfold catsLeft distinctCategories
    have h1 : (S.map (·.category)).toFinset = (A.map (·.category)).toFinset := by
      ext x
      simp only [List.mem_toFinset]
      exact (hperm.map _).mem_iff
    rw [Finset.filter_true_of_mem (fun x _ => List.not_mem_nil x), h1]
  have hlen1 : (selectFirstPass count [] [] S).length = count := by
    rw [selectFirstPass_length]
    simp only [List.length_nil, Nat.zero_add]
    split
    · omega
    · omega
  rw [selectSecondPass_eq_of_le count _ S (le_of_eq hlen1.symm)]
  exact ⟨hlen1, selectFirstPass_cats_nodup count S [] [] (by simp) (by simp)⟩

/-- Witness for C5 at a concrete input. -/
theorem selectRandomBugTypes_diverse_witness :
    3 ≤ distinctCategories (applicableBugsFor .low) ∧
    ((selectRandomBugTypes zeroOracle 0 3 .low).length = 3 ∧
     ((selectRandomBugTypes zeroOracle 0 3 .low).map (·.category)).Nodup) :=
  ⟨by decide, selectRandomBugTypes_diverse zeroOracle 0 3 .low (by decide)⟩

/-! ## The generative injector (`introduceAIStress`)

The source file contains several revisions of `introduceAIStress`.  The one at
lines 1617-1969 raises a typed `AIStressError` for every failure and never
falls back itself; the earlier one at lines 925-1206 catches *every* error and
silently returns the result of `fallbackStress`.  Both are modelled.  The
external collaborators — the dynamic AI SDK import, the `generateText` call
and `JSON.parse` — are supplied as oracle parameters; the prompt string they
would receive is elided (it is never inspected). -/

/-- C6 (amended, for the revision at lines 1617-1969): when the collaborator's
text contains no extractable brace-delimited JSON object, the injector raises
the typed `AIStressError` "no JSON found"; when the parsed object lacks (is
falsy in) `modifiedCode` or `changes`, it raises the typed "invalid structure"
`AIStressError`; a rejection of the `generateText` call itself is re-raised
wrapped (with its cause) as an `AIStressError`; and every error the function
surfaces is an `AIStressError` — it never degrades to the fallback engine. -/
theorem introduceAIStress_error_contract (sdk : Except (List Char) Unit)
    (gen : Except (List Char) (List Char))
    (pj : List Char → Except (List Char) ParsedResponse) (g : Nat → Nat) (k : Nat)
    (content filename : List Char) (ctx : Option (List Char)) (lvl : StressLevel)
    (target : Option Int) :
    (∀ text, sdk = .ok () → gen = .ok text → extractJsonObject text = none →
      introduceAIStress sdk gen pj g k content filename ctx lvl target =
        .error (.ai ⟨"Failed to parse AI response - no JSON found in output".data,
          none⟩)) ∧
    (∀ text jsonStr parsed, sdk = .ok () → gen = .ok text →
      extractJsonObject text = some jsonStr → pj jsonStr = .ok parsed →
      (!(truthyStr parsed.modifiedCode) || !(parsed.changes.isSome)) = true →
      introduceAIStress sdk gen pj g k content filename ctx lvl target =
        .error (.ai ⟨("Invalid AI response structure - missing " ++
          "modifiedCode or changes").data, none⟩)) ∧
    (∀ m, sdk = .ok () → gen = .error m →
      introduceAIStress sdk gen pj g k content filename ctx lvl target =
        .error (.ai ⟨("AI stress generation failed. Please check your API key " ++
          "and try again.").data, some m⟩)) ∧
    (∀ e, introduceAIStress sdk gen pj g k content filename ctx lvl target =
      .error e → ∃ a, e = StressThrow.ai a) := by
  refine ⟨?_, ?_, ?_, ?_⟩
  · rintro text rfl rfl hex
    unfold introduceAIStress
    simp only [hex]
  · rintro text jsonStr parsed rfl rfl hex hpj hfalsy
    unfold introduceAIStress
    simp only [hex, hpj, hfalsy, if_true]
  · rintro m rfl rfl
    unfold introduceAIStress
    simp only
  · intro e he
    unfold introduceAIStress at he
    rcases sdk with e0 | u
    · exact ⟨_, ((Except.error.injEq _ _).mp he).symm⟩
    · cases u
      simp only at he
      rcases gen with m | text
      · simp only at he
        exact ⟨_, ((Except.error.injEq _ _).mp he).symm⟩
      · simp only at he
        rcases hex : extractJsonObject text with _ | jsonStr
        · simp only [hex] at he
          exact ⟨_, ((Except.error.injEq _ _).mp he).symm⟩
        · simp only [hex] at he
          rcases hpj : pj jsonStr with m | parsed
          · simp only [hpj] at he
            exact ⟨_, ((Except.error.injEq _ _).mp he).symm⟩
          · simp only [hpj] at he
            by_cases hval : (!(truthyStr parsed.modifiedCode) ||
                !(parsed.changes.isSome)) = true
            · simp only [hval, if_true] at he
              exact ⟨_, ((Except.error.injEq _ _).mp he).symm⟩
            · simp only [hval] at he
              simp at he

/-- Counterexample for C6 as stated: the repository's earlier revision of
`introduceAIStress` (source lines 925-1206, whose `catch` is lines 1201-1205)
does silently degrade inside the component: on a collaborator reply with no
extractable JSON it returns the deterministic fallback's result as a success
instead of raising an `AIStressError`. -/
theorem introduceAIStressLegacy_silent_fallback_cex :
    introduceAIStressLegacy (Except.ok ()) (Except.ok "not json at all".data)
      (fun _ => Except.error "SyntaxError".data) zeroOracle 0 "a".data "x.ts".data
      none .medium (some 1) =
      Except.ok (fallbackStress zeroOracle 1 "a".data "x.ts".data none .medium
        (some 1)) := rfl

/-- Witness for C6 (amended) at a concrete input: the lines-1617 revision
raises the typed "no JSON found" `AIStressError` on the same reply. -/
theorem introduceAIStress_error_contract_witness :
    extractJsonObject "not json at all".data = none ∧
    introduceAIStress (Except.ok ()) (Except.ok "not json at all".data)
      (fun _ => Except.error "SyntaxError".data) zeroOracle 0 "a".data "x.ts".data
      none .medium (some 1) =
      Except.error (StressThrow.ai
        ⟨"Failed to parse AI response - no JSON found in output".data, none⟩) := by
  refine ⟨by decide, ?_⟩
  exact (introduceAIStress_error_contract (Except.ok ())
    (Except.ok "not json at all".data) (fun _ => Except.error "SyntaxError".data)
    zeroOracle 0 "a".data "x.ts".data none .medium (some 1)).1
    "not json at all".data rfl rfl (by decide)
